import Mathlib

/-!
Verification of the ghproxy repository's path matcher (`proxy/match.go`)
and authenticated container-registry proxy engine (`GhcrWithImageRouting`,
`GhcrToTarget`, `GhcrRequest`, `ChallengeReq`).

Shallow embedding conventions:
* Go strings are modelled as `String` / `List Char` (the inputs exercised
  here are ASCII, where Go's byte indexing and Lean's character indexing
  extract the same segments).
* `strings.IndexByte s '/'` returning `-1`/`0`/`i>0` is modelled by
  matching `List.findIdx? (· = '/')` against `none` / `some 0` / `some (i+1)`.
* Fallible Go calls (transport errors, request-build errors) are modelled
  by an explicit environment record supplying each call's outcome.
* Response bodies are opaque `Nat` identifiers; traces record which bodies
  were closed.
-/

deriving instance DecidableEq for Except

namespace GhProxy

/-! ### Path matcher (`proxy/match.go`) -/

/-- `https://github.com/` -/
def githubPrefixL : List Char := "https://github.com/".data

/-- `https://raw.githubusercontent.com/` -/
def rawPrefixL : List Char := "https://raw.githubusercontent.com/".data

/-- `https://gist.github.com/` -/
def gistPrefixL : List Char := "https://gist.github.com/".data

/-- `https://gist.githubusercontent.com/` -/
def gistContentPrefixL : List Char := "https://gist.githubusercontent.com/".data

/-- `https://api.github.com/` -/
def apiPrefixL : List Char := "https://api.github.com/".data

/-- `releases/download/` -/
def releasesDownloadSnippetL : List Char := "releases/download/".data

/-- The slice of `config.Config.Auth` consumed by `Matcher`. -/
structure AuthCfg where
  forceAllowApi : Bool
  method : String
  enabled : Bool
deriving DecidableEq, Repr

/-- The quadruple returned by Go's `Matcher`: `(user, repo, matcher, *GHProxyErrors)`.
`err = none` models a `nil` error pointer. -/
structure MatchOut where
  user : String
  repo : String
  matcher : String
  err : Option (Nat × String)
deriving DecidableEq, Repr

/-- An error return of `Matcher`: all three strings are empty. -/
def mErr (status : Nat) (msg : String) : MatchOut :=
  ⟨"", "", "", some (status, msg)⟩

/-- `strings.HasPrefix` on character lists (recursion on the prefix, so
that `hasPrefixL p (p ++ tail)` reduces for symbolic tails). -/
def hasPrefixL (p l : List Char) : Bool :=
  match p with
  | [] => true
  | a :: as =>
    match l with
    | [] => false
    | b :: bs => a == b && hasPrefixL as bs

/-- First `/` position, mirroring `strings.IndexByte(s, '/')`
(`none` ↔ Go's `-1`). -/
def firstSlash (l : List Char) : Option Nat :=
  l.findIdx? (fun c => c = '/')

/-- The first path segment of `l` (`remaining[:i]` when a slash exists at `i`,
else all of `remaining`), as extracted at lines 61-65 of `match.go`. -/
def firstSegment (l : List Char) : List Char :=
  match firstSlash l with
  | some k => l.take k
  | none => l

/-- The `switch action` dispatch of the `github.com` branch
(`match.go` lines 67-84). `action` is `firstSegment rem3`. -/
def githubActionDispatch (action rem3 : List Char) : Except (Nat × String) String :=
  if action = "releases".data then
    if hasPrefixL releasesDownloadSnippetL rem3 then Except.ok "releases"
    else Except.error (400, "malformed github path: not a releases download url")
  else if action = "archive".data then Except.ok "releases"
  else if action = "blob".data then Except.ok "blob"
  else if action = "raw".data then Except.ok "raw"
  else if action = "info".data ∨ action = "git-upload-pack".data then Except.ok "clone"
  else Except.error (400, "unsupported github action: " ++ action.asString)

/-- The `https://github.com/` branch of `Matcher` (`match.go` lines 44-86). -/
def githubBranch (remaining : List Char) : MatchOut :=
  match firstSlash remaining with
  | none => mErr 400 "malformed github path: missing user"
  | some 0 => mErr 400 "malformed github path: missing user"
  | some i =>
    let user := remaining.take i
    let rem2 := remaining.drop (i + 1)
    match firstSlash rem2 with
    | none => mErr 400 "malformed github path: missing repo"
    | some 0 => mErr 400 "malformed github path: missing repo"
    | some j =>
      let repo := rem2.take j
      let rem3 := rem2.drop (j + 1)
      if rem3.length = 0 then mErr 400 "malformed github path: missing action"
      else
        match githubActionDispatch (firstSegment rem3) rem3 with
        | Except.ok m => ⟨user.asString, repo.asString, m, none⟩
        | Except.error e => ⟨"", "", "", some e⟩

/-- The `https://raw.githubusercontent.com/` branch (`match.go` lines 89-110). -/
def rawBranch (remaining : List Char) : MatchOut :=
  match firstSlash remaining with
  | none => mErr 400 "malformed raw url: missing user"
  | some 0 => mErr 400 "malformed raw url: missing user"
  | some i =>
    let user := remaining.take i
    let rem2 := remaining.drop (i + 1)
    match firstSlash rem2 with
    | none => mErr 400 "malformed raw url: missing repo"
    | some 0 => mErr 400 "malformed raw url: missing repo"
    | some j =>
      let repo := rem2.take j
      let rem3 := rem2.drop (j + 1)
      if rem3.length = 0 then mErr 400 "malformed raw url: missing branch/commit"
      else ⟨user.asString, repo.asString, "raw", none⟩

/-- The (identical) `gist.github.com` / `gist.githubusercontent.com` branches
(`match.go` lines 113-127 and 130-144).  Go's `i <= 0` covers `i = -1`
(no slash) and `i = 0` (leading slash); in both sub-cases a non-empty
`remaining` is returned whole as the user. -/
def gistBranch (remaining : List Char) : MatchOut :=
  match firstSlash remaining with
  | none =>
    if remaining.length > 0 then ⟨remaining.asString, "", "gist", none⟩
    else mErr 400 "malformed gist url: missing user"
  | some 0 =>
    if remaining.length > 0 then ⟨remaining.asString, "", "gist", none⟩
    else mErr 400 "malformed gist url: missing user"
  | some i => ⟨(remaining.take i).asString, "", "gist", none⟩

/-- `strings.SplitN(s, "/", n)` on character lists. -/
def goSplitN : List Char → Nat → List (List Char)
  | _, 0 => []
  | l, 1 => [l]
  | l, n + 2 =>
    match firstSlash l with
    | none => [l]
    | some i => l.take i :: goSplitN (l.drop (i + 1)) (n + 1)

/-- The `https://api.github.com/` branch (`match.go` lines 147-166). -/
def apiBranch (remaining : List Char) (cfg : AuthCfg) : MatchOut :=
  if ¬ cfg.forceAllowApi ∧ (cfg.method ≠ "header" ∨ ¬ cfg.enabled) then
    mErr 403 "API proxy requires header authentication"
  else
    let ur : List Char × List Char :=
      if hasPrefixL "repos/".data remaining then
        let parts := goSplitN (remaining.drop 6) 3
        if 2 ≤ parts.length then (parts.getD 0 [], parts.getD 1 []) else ([], [])
      else if hasPrefixL "users/".data remaining then
        let parts := goSplitN (remaining.drop 6) 2
        if 1 ≤ parts.length then (parts.getD 0 [], []) else ([], [])
      else ([], [])
    ⟨ur.1.asString, ur.2.asString, "api", none⟩

/-- `Matcher` over character lists (`match.go` lines 38-169). -/
def matcherCore (l : List Char) (cfg : AuthCfg) : MatchOut :=
  if l.length < 18 then mErr 404 "path too short"
  else if hasPrefixL githubPrefixL l then githubBranch (l.drop githubPrefixL.length)
  else if hasPrefixL rawPrefixL l then rawBranch (l.drop rawPrefixL.length)
  else if hasPrefixL gistPrefixL l then gistBranch (l.drop gistPrefixL.length)
  else if hasPrefixL gistContentPrefixL l then gistBranch (l.drop gistContentPrefixL.length)
  else if hasPrefixL apiPrefixL l then apiBranch (l.drop apiPrefixL.length) cfg
  else mErr 404 "no matcher found for the given path"

/-- `Matcher(rawPath, cfg)`. -/
def Matcher (rawPath : String) (cfg : AuthCfg) : MatchOut :=
  matcherCore rawPath.data cfg

/-! ### Registry target resolution (`GhcrWithImageRouting`, `GhcrToTarget`) -/

/-- `registry-1.docker.io` -/
def dockerhubTarget : String := "registry-1.docker.io"

/-- `ghcr.io` -/
def ghcrTarget : String := "ghcr.io"

/-- The `switch` on `reqTarget` in `GhcrWithImageRouting` (part_000 lines
56-71).  The `default` arm scans the runes for a `'.'` and otherwise leaves
`target` as the empty string. -/
def GhcrWithImageRoutingTarget (reqTarget : String) : String :=
  if reqTarget = "docker.io" then dockerhubTarget
  else if reqTarget = "ghcr.io" then ghcrTarget
  else if ".gcr.io".data.isSuffixOf reqTarget.data ∨ reqTarget = "gcr.io" then reqTarget
  else if reqTarget.data.any (fun r => r = '.') then reqTarget
  else ""

/-- The upstream-target selection of `GhcrToTarget` (part_000 lines 97-122):
a non-empty `target` wins; otherwise the configured `cfg.Docker.Target`
resolves through the alias table, with the empty default rejected 403. -/
def GhcrToTargetUpstream (target : String) (configDefault : String) :
    Except (Nat × String) String :=
  if target ≠ "" then Except.ok target
  else if configDefault = "ghcr" then Except.ok ghcrTarget
  else if configDefault = "dockerhub" then Except.ok dockerhubTarget
  else if configDefault = "" then Except.error (403, "Docker Target is not set")
  else Except.ok configDefault

/-- End-to-end resolution: the routing handler's `switch` feeds
`GhcrToTarget`. -/
def resolveFull (reqTarget : String) (configDefault : String) :
    Except (Nat × String) String :=
  GhcrToTargetUpstream (GhcrWithImageRoutingTarget reqTarget) configDefault

/-! ### URLs (model of the slice of `net/url` used by `GhcrRequest`) -/

/-- Simplified model of Go's `url.URL`, with path and query kept separate. -/
structure GoURL where
  scheme : String
  host : String
  path : String
  query : String
deriving DecidableEq, Repr

/-- Split `<scheme>://<rest>` at the first occurrence of `://`
(`none` when absent: a relative reference). -/
def splitScheme : List Char → Option (List Char × List Char)
  | [] => none
  | c :: rest =>
    if hasPrefixL "://".data (c :: rest) then some ([], rest.drop 2)
    else (splitScheme rest).map (fun p => (c :: p.1, p.2))

/-- Model of `url.Parse` restricted to the shapes `GhcrRequest` meets:
strings containing a space fail; `<scheme>://<host><path>?<query>` parses
absolute; anything else parses as a relative (path-and-query) reference. -/
def parseGoURL (s : String) : Option GoURL :=
  let l := s.data
  if l.any (fun c => c = ' ') then none
  else
    match splitScheme l with
    | none =>
      let p := l.takeWhile (fun c => ¬ c = '?')
      let q := l.drop (p.length + 1)
      some ⟨"", "", p.asString, q.asString⟩
    | some (sc, rest) =>
      let host := rest.takeWhile (fun c => ¬ (c = '/' ∨ c = '?'))
      let pq := rest.drop host.length
      let p := pq.takeWhile (fun c => ¬ c = '?')
      let q := pq.drop (p.length + 1)
      some ⟨sc.asString, host.asString, p.asString, q.asString⟩

/-- `url.URL.IsAbs`: a URL is absolute iff it carries a scheme. -/
def GoURL.isAbs (u : GoURL) : Bool := u.scheme ≠ ""

/-- Directory part of a path, as used by RFC 3986 merge: everything up to
and including the last `/`. -/
def dirOfPath (p : String) : String :=
  match (p.data.reverse.findIdx? (fun c => c = '/')) with
  | some k => (p.data.take (p.data.length - k)).asString
  | none => ""

/-- Model of `url.URL.ResolveReference` for the references produced here
(no dot-segment removal, which the exercised inputs do not contain). -/
def GoURL.resolveReference (base ref : GoURL) : GoURL :=
  if ref.scheme ≠ "" then ref
  else if ref.host ≠ "" then ⟨base.scheme, ref.host, ref.path, ref.query⟩
  else if ref.path = "" then
    ⟨base.scheme, base.host, base.path, if ref.query = "" then base.query else ref.query⟩
  else if hasPrefixL "/".data ref.path.data then ⟨base.scheme, base.host, ref.path, ref.query⟩
  else ⟨base.scheme, base.host, dirOfPath base.path ++ ref.path, ref.query⟩

/-- `url.URL.String`. -/
def GoURL.toString (u : GoURL) : String :=
  (if u.scheme = "" then "" else u.scheme ++ "://" ++ u.host) ++
    u.path ++ (if u.query = "" then "" else "?" ++ u.query)

/-- `strconv.Atoi`: optional sign, at least one digit, all digits,
64-bit range; anything else is an error (`none`). -/
def goAtoi (s : String) : Option Int :=
  match s.data with
  | [] => none
  | c :: rest =>
    let sd : Bool × List Char :=
      if c = '-' then (true, rest) else if c = '+' then (false, rest) else (false, s.data)
    if sd.2 = [] ∨ ¬ sd.2.all Char.isDigit then none
    else
      let n : Nat := sd.2.foldl (fun acc d => acc * 10 + (d.toNat - '0'.toNat)) 0
      let v : Int := if sd.1 then -(n : Int) else (n : Int)
      if v < -(2 ^ 63) ∨ v > 2 ^ 63 - 1 then none else some v

/-! ### The authenticated proxy engine (`GhcrRequest`, part_000 lines 129-344) -/

/-- The `imageInfo` struct: `Image` is `"<User>/<Repo>"` as built by
`GhcrWithImageRouting`. -/
structure ImageInfo where
  user : String
  repo : String
  image : String
deriving DecidableEq, Repr

/-- The slice of `config.Config` consumed by `GhcrRequest`:
`cfg.Server.SizeLimit` (megabytes) and
`cfg.RateLimit.BandwidthLimit.Enabled`. -/
structure EngineCfg where
  sizeLimit : Nat
  bandwidthEnabled : Bool
deriving DecidableEq, Repr

/-- An upstream `*http.Response` as consumed by the engine: status,
the `Location` and `Content-Length` headers (`""` models an absent header,
matching `http.Header.Get`), `resp.Request.URL`, and an opaque body id. -/
structure HResp where
  status : Nat
  location : String
  contentLength : String
  reqURL : GoURL
  body : Nat
deriving DecidableEq, Repr

/-- Environment supplying the outcome of every fallible external call made
by `GhcrRequest`: request-body read, the three request builds, the three
sends (`none` models a transport error), and the token produced by
`ChallengeReq` (`""` models challenge failure). -/
structure Env where
  bodyReadOk : Bool
  buildOk : Bool
  initial : Option HResp
  challengeToken : String
  retryBuildOk : Bool
  retry : Option HResp
  redirectBuildOk : Bool
  redirect : Option HResp
deriving DecidableEq, Repr

/-- What the client ultimately observes. `handleErr` models `HandleError`,
`errPage` models `ErrorPage`, `redirectOut` models `c.Redirect`, and
`stream` models `c.Status` + `c.SetBodyStream(body, size)` (with
`limited` recording whether the rate-limited reader wrapped the body). -/
inductive Outcome where
  | handleErr (msg : String)
  | errPage (status : Nat) (msg : String)
  | redirectOut (status : Nat) (url : String)
  | stream (status : Nat) (body : Nat) (size : Int) (limited : Bool)
deriving DecidableEq, Repr

/-- The redirect follow-up request actually issued: method is forced to
`GET`, no body, and the only header set is the client's `User-Agent`. -/
structure RedirectReq where
  method : String
  url : String
  userAgent : String
  hasBody : Bool
deriving DecidableEq, Repr

/-- Observable actions of one `GhcrRequest` run. -/
structure Trace where
  initialSent : Bool
  initialAuth : Option String
  initialBodyBytes : String
  challengeCalled : Bool
  cachePut : Option (String × String)
  retrySent : Nat
  retryAuth : Option String
  retryBodyBytes : Option String
  redirectSent : List RedirectReq
  closed : List Nat
deriving DecidableEq, Repr

/-- Result of one engine phase: an early return (`done`) or the working
response handed to the next phase (`cont`). -/
inductive StepRes where
  | done (o : Outcome)
  | cont (r : HResp)
deriving DecidableEq, Repr

/-- The 401/404 auth-retry block of `GhcrRequest` (part_000 lines 184-241). -/
def authPhase (env : Env) (image : Option ImageInfo) (reqPath : String)
    (resp : HResp) (tr : Trace) : StepRes × Trace :=
  if resp.status = 401 ∨ resp.status = 404 then
    if reqPath ≠ "/v2/" then
      match image with
      | none =>
        (StepRes.done (Outcome.errPage resp.status "Unauthorized"),
          { tr with closed := tr.closed ++ [resp.body] })
      | some img =>
        let token := env.challengeToken
        let tr1 := { tr with challengeCalled := true }
        if token ≠ "" then
          let tr2 := { tr1 with
            closed := tr1.closed ++ [resp.body]
            cachePut := some (img.image, token) }
          if ¬ env.retryBuildOk then
            (StepRes.done (Outcome.handleErr "Failed to create retry request"), tr2)
          else
            let tr3 := { tr2 with
              retrySent := tr2.retrySent + 1
              retryAuth := some ("Bearer " ++ token)
              retryBodyBytes := some tr2.initialBodyBytes }
            match env.retry with
            | none => (StepRes.done (Outcome.handleErr "Failed to send retry request"), tr3)
            | some r2 => (StepRes.cont r2, tr3)
        else (StepRes.cont resp, tr1)
    else (StepRes.cont resp, tr)
  else (StepRes.cont resp, tr)

/-- The 302/307 redirect block of `GhcrRequest` (part_000 lines 244-285). -/
def redirectPhase (env : Env) (clientUA : String) (resp : HResp) (tr : Trace) :
    StepRes × Trace :=
  if resp.status = 302 ∨ resp.status = 307 then
    if resp.location = "" then
      (StepRes.done (Outcome.handleErr "Redirect response missing Location header"),
        { tr with closed := tr.closed ++ [resp.body] })
    else
      match parseGoURL resp.location with
      | none =>
        (StepRes.done (Outcome.handleErr "Failed to parse redirect location"),
          { tr with closed := tr.closed ++ [resp.body] })
      | some ru0 =>
        let ru := if ¬ ru0.isAbs then GoURL.resolveReference resp.reqURL ru0 else ru0
        let tr1 := { tr with closed := tr.closed ++ [resp.body] }
        if ¬ env.redirectBuildOk then
          (StepRes.done (Outcome.handleErr "Failed to create redirect request"), tr1)
        else
          let tr2 := { tr1 with
            redirectSent := tr1.redirectSent ++ [⟨"GET", ru.toString, clientUA, false⟩] }
          match env.redirect with
          | none => (StepRes.done (Outcome.handleErr "Failed to execute redirect request"), tr2)
          | some r3 => (StepRes.cont r3, tr2)
  else (StepRes.cont resp, tr)

/-- The final 404-page / size-enforcement / streaming block of `GhcrRequest`
(part_000 lines 287-344).  Returns the outcome and the bodies this block
closes (ownership of a streamed body transfers to the client). -/
def finalizeResp (cfg : EngineCfg) (resp : HResp) : Outcome × List Nat :=
  if resp.status = 404 then
    (Outcome.errPage 404 "Page Not Found (From Upstream)", [resp.body])
  else
    let sizelimit : Int := (cfg.sizeLimit : Int) * 1024 * 1024
    if resp.contentLength ≠ "" then
      match goAtoi resp.contentLength with
      | some n =>
        if n > sizelimit then
          (Outcome.redirectOut 301 resp.reqURL.toString, [resp.body])
        else (Outcome.stream resp.status resp.body n cfg.bandwidthEnabled, [])
      | none => (Outcome.stream resp.status resp.body (-1) cfg.bandwidthEnabled, [])
    else (Outcome.stream resp.status resp.body (-1) cfg.bandwidthEnabled, [])

/-- The empty trace an engine run starts from. -/
def initTrace (bodyBytes : String) : Trace :=
  { initialSent := false
    initialAuth := none
    initialBodyBytes := bodyBytes
    challengeCalled := false
    cachePut := none
    retrySent := 0
    retryAuth := none
    retryBodyBytes := none
    redirectSent := []
    closed := [] }

/-- The tail of `GhcrRequest` after the auth-retry block: the redirect
phase followed by finalization (part_000 lines 244-344). -/
def postAuthPipeline (cfg : EngineCfg) (env : Env) (clientUA : String)
    (resp : HResp) (tr : Trace) : Outcome × Trace :=
  match redirectPhase env clientUA resp tr with
  | (StepRes.done o, tr2) => (o, tr2)
  | (StepRes.cont resp2, tr2) =>
    let oc := finalizeResp cfg resp2
    (oc.1, { tr2 with closed := tr2.closed ++ oc.2 })

/-- The trace right after the initial request was built and sent: the
`Authorization: Bearer <token>` header is attached on a cache hit for the
image identity (part_000 lines 168-177). -/
def tr1Of (image : Option ImageInfo) (bodyBytes : String)
    (cache : List (String × String)) : Trace :=
  { initTrace bodyBytes with
    initialSent := true
    initialAuth :=
      match image with
      | some img => (cache.lookup img.image).map (fun t => "Bearer " ++ t)
      | none => none }

/-- `GhcrRequest` (part_000 lines 129-344): read body, build and send the
initial request (with `Authorization: Bearer <token>` on a cache hit),
then the auth-retry phase followed by the post-auth pipeline. -/
def GhcrRequest (cfg : EngineCfg) (image : Option ImageInfo) (reqPath : String)
    (bodyBytes : String) (clientUA : String) (cache : List (String × String))
    (env : Env) : Outcome × Trace :=
  let tr0 := initTrace bodyBytes
  if ¬ env.bodyReadOk then (Outcome.handleErr "Failed to read request body", tr0)
  else if ¬ env.buildOk then (Outcome.handleErr "Failed to create request", tr0)
  else
    let tr1 := tr1Of image bodyBytes cache
    match env.initial with
    | none => (Outcome.handleErr "Failed to send request", tr1)
    | some resp0 =>
      match authPhase env image reqPath resp0 tr1 with
      | (StepRes.done o, tr) => (o, tr)
      | (StepRes.cont resp1, tr2) => postAuthPipeline cfg env clientUA resp1 tr2

/-! ### The auth challenge resolver (`ChallengeReq`, part_000 lines 352-424) -/

/-- A parsed `WWW-Authenticate: Bearer` challenge. -/
structure Bearer where
  realm : String
  service : String
deriving DecidableEq, Repr

/-- `strings.Split(s, ",")` on character lists (structural recursion). -/
def splitComma : List Char → List (List Char)
  | [] => [[]]
  | c :: rest =>
    if c = ',' then [] :: splitComma rest
    else
      match splitComma rest with
      | [] => [[c]]
      | p :: ps => (c :: p) :: ps

/-- Trim surrounding spaces. -/
def trimL (l : List Char) : List Char :=
  ((l.dropWhile (fun c => c = ' ')).reverse.dropWhile (fun c => c = ' ')).reverse

/-- `strings.HasSuffix` on character lists. -/
def hasSuffixL (p l : List Char) : Bool :=
  hasPrefixL p.reverse l.reverse

/-- Extract a `key="value"` parameter from the comma-separated parameter
list of a Bearer challenge. -/
def extractBearerParam (k : String) (params : List (List Char)) : Option String :=
  params.findSome? (fun p0 =>
    let p := trimL p0
    let pre := (k ++ "=\x22").data
    if hasPrefixL pre p ∧ hasSuffixL "\x22".data p ∧ pre.length + 1 ≤ p.length then
      some ((p.drop pre.length).dropLast).asString
    else none)

/-- Modelled from the spec: `parseBearerWWWAuthenticateHeader` is called by
`ChallengeReq` but its definition is not among the provided sources.  Per
the spec a `BearerChallenge {realm, service}` is parsed from a
`WWW-Authenticate: Bearer realm="...",service="...",...` header value, and
a malformed or missing header is a failure. -/
def parseBearerWWWAuthenticateHeader (h : String) : Option Bearer :=
  if hasPrefixL "Bearer ".data h.data then
    let params := splitComma (h.data.drop 7)
    match extractBearerParam "realm" params, extractBearerParam "service" params with
    | some r, some s => some ⟨r, s⟩
    | _, _ => none
  else none

/-- The `/v2/` discovery response as consumed by `ChallengeReq`: its
`Www-Authenticate` header (`""` models an absent header) and body id. -/
structure Ch401 where
  wwwAuth : String
  body : Nat
deriving DecidableEq, Repr

/-- The token-endpoint response as consumed by `ChallengeReq`: body id,
whether reading the body succeeds, and the result of `json.Unmarshal` on
its bytes (`none` models a decode error, `some tok` a decoded
`AuthToken{Token: tok}`). -/
structure ChAuth where
  body : Nat
  readOk : Bool
  decoded : Option String
deriving DecidableEq, Repr

/-- Environment supplying the outcome of every fallible call made by
`ChallengeReq`. -/
structure ChEnv where
  build401Ok : Bool
  resp401 : Option Ch401
  authBuildOk : Bool
  authResp : Option ChAuth
deriving DecidableEq, Repr

/-- Observable actions of one `ChallengeReq` run: the discovery request's
URL, the token-endpoint request (realm URL, `Host`/`service` value, scope
query), and which response bodies were opened and closed. -/
structure ChTrace where
  v2Req : Option String
  tokenReq : Option (String × String × String)
  opened : List Nat
  closed : List Nat
deriving DecidableEq, Repr

/-- `ChallengeReq(target, image)` (part_000 lines 352-424).  Both `defer
resp.Body.Close()` calls are modelled by adding the body to `closed` on
every return past the corresponding send. -/
def ChallengeReq (target : String) (image : ImageInfo) (env : ChEnv) :
    String × ChTrace :=
  let tr0 : ChTrace := { v2Req := none, tokenReq := none, opened := [], closed := [] }
  if ¬ env.build401Ok then ("", tr0)
  else
    let tr1 := { tr0 with v2Req := some ("https://" ++ target ++ "/v2/") }
    match env.resp401 with
    | none => ("", tr1)
    | some r1 =>
      let tr2 := { tr1 with opened := [r1.body] }
      match parseBearerWWWAuthenticateHeader r1.wwwAuth with
      | none => ("", { tr2 with closed := [r1.body] })
      | some b =>
        let scope := "repository:" ++ image.image ++ ":pull"
        if ¬ env.authBuildOk then ("", { tr2 with closed := [r1.body] })
        else
          let tr3 := { tr2 with tokenReq := some (b.realm, b.service, scope) }
          match env.authResp with
          | none => ("", { tr3 with closed := [r1.body] })
          | some r2 =>
            let tr4 := { tr3 with opened := tr3.opened ++ [r2.body] }
            if ¬ r2.readOk then ("", { tr4 with closed := [r2.body, r1.body] })
            else
              match r2.decoded with
              | none => ("", { tr4 with closed := [r2.body, r1.body] })
              | some tok => (tok, { tr4 with closed := [r2.body, r1.body] })

/-! ### General helper lemmas -/

theorem asString_ne_empty {l : List Char} (h : l ≠ []) : l.asString ≠ "" := by
  intro hc
  apply h
  have := congrArg String.data hc
  simpa using this

theorem firstSlash_cons (a : Char) (l : List Char) :
    firstSlash (a :: l) = if a = '/' then some 0 else (firstSlash l).map (· + 1) := by
  unfold firstSlash
  rw [List.findIdx?_cons]
  split
  · next h => rw [if_pos (by simpa using h)]
  · next h => rw [if_neg (by simpa using h), List.findIdx?_succ]

theorem firstSlash_append_slash (o t : List Char) (h : ∀ c ∈ o, ¬ c = '/') :
    firstSlash (o ++ '/' :: t) = some o.length := by
  induction o with
  | nil => simp [firstSlash_cons]
  | cons a o ih =>
    have ha : ¬ a = '/' := h a (List.mem_cons_self a o)
    rw [List.cons_append, firstSlash_cons, if_neg ha,
      ih (fun c hc => h c (List.mem_cons_of_mem a hc))]
    simp

theorem firstSlash_none_of_no_slash (l : List Char) (h : ∀ c ∈ l, ¬ c = '/') :
    firstSlash l = none := by
  unfold firstSlash
  rw [List.findIdx?_eq_none_iff]
  intro c hc
  simpa using h c hc

theorem firstSlash_ne_nil {l : List Char} {k : Nat} (h : firstSlash l = some k) :
    l ≠ [] := by
  intro hc
  subst hc
  simp [firstSlash] at h

/-! ### C4: registry target resolution -/

/-- C4 counterexample: the claim says every non-empty explicit route target
resolves through the special-case table "without consulting the configured
default".  The explicit target `"foo"` is non-empty but contains no `'.'`,
so the routing `switch` leaves the target empty and `GhcrToTarget` DOES
consult the configured default: the resolved upstream differs between a
`ghcr` default and a `dockerhub` default. -/
theorem spec_c4_counterexample :
    ("foo" : String) ≠ "" ∧
    resolveFull "foo" "ghcr" = Except.ok "ghcr.io" ∧
    resolveFull "foo" "dockerhub" = Except.ok "registry-1.docker.io" ∧
    resolveFull "foo" "ghcr" ≠ resolveFull "foo" "dockerhub" := by
  refine ⟨by decide, by decide, by decide, by decide⟩

theorem ghcrToTargetUpstream_of_ne_empty (s d : String) (h : s ≠ "") :
    GhcrToTargetUpstream s d = Except.ok s := by
  unfold GhcrToTargetUpstream
  rw [if_pos h]

theorem routingTarget_ne_empty_of_dot (t : String)
    (h : t.data.any (fun r => r = '.') = true) :
    GhcrWithImageRoutingTarget t ≠ "" := by
  have hne : t ≠ "" := by
    intro hc
    subst hc
    simp at h
  unfold GhcrWithImageRoutingTarget
  split_ifs with h1 h2 h3
  · decide
  · decide
  · exact hne
  · exact hne

/-- C4 (amended): a non-empty explicit target matching the special-case
table or containing a `'.'` resolves through the table without consulting
the configured default (`docker.io → registry-1.docker.io`,
`ghcr.io → ghcr.io`, `gcr.io` and `*.gcr.io` unchanged, any other dotted
string verbatim); but a non-empty explicit target containing no `'.'` is
not used verbatim — it resolves to the empty target and falls through to
the configured default exactly as an empty explicit target does (alias
`ghcr`/`dockerhub`, literal host otherwise, empty default rejected with
403 "Docker Target is not set"). -/
theorem spec_c4 :
    (∀ d : String, resolveFull "docker.io" d = Except.ok "registry-1.docker.io") ∧
    (∀ d : String, resolveFull "ghcr.io" d = Except.ok "ghcr.io") ∧
    (∀ t d : String, (".gcr.io".data.isSuffixOf t.data ∨ t = "gcr.io") →
      resolveFull t d = Except.ok t) ∧
    (∀ t d : String, t.data.any (fun r => r = '.') = true →
      ∀ d' : String, resolveFull t d = resolveFull t d') ∧
    (∀ t d : String, t.data.any (fun r => r = '.') = false →
      resolveFull t d = GhcrToTargetUpstream "" d) ∧
    (∀ d : String, GhcrToTargetUpstream "" "ghcr" = Except.ok "ghcr.io" ∧
      GhcrToTargetUpstream "" "dockerhub" = Except.ok "registry-1.docker.io" ∧
      GhcrToTargetUpstream "" "" = Except.error (403, "Docker Target is not set") ∧
      (d ≠ "" → d ≠ "ghcr" → d ≠ "dockerhub" → GhcrToTargetUpstream "" d = Except.ok d)) := by
  refine ⟨fun d => rfl, fun d => rfl, ?_, ?_, ?_, ?_⟩
  · intro t d h
    by_cases h1 : t = "docker.io"
    · subst h1
      exact absurd h (by decide)
    by_cases h2 : t = "ghcr.io"
    · subst h2
      exact absurd h (by decide)
    have hne : t ≠ "" := by
      rcases h with h | h
      · intro hc
        subst hc
        revert h
        decide
      · subst h
        decide
    unfold resolveFull GhcrWithImageRoutingTarget
    rw [if_neg h1, if_neg h2, if_pos h]
    exact ghcrToTargetUpstream_of_ne_empty t d hne
  · intro t d h d'
    have hne := routingTarget_ne_empty_of_dot t h
    unfold resolveFull
    rw [ghcrToTargetUpstream_of_ne_empty _ d hne, ghcrToTargetUpstream_of_ne_empty _ d' hne]
  · intro t d h
    have h1 : t ≠ "docker.io" := by
      intro hc
      subst hc
      simp at h
    have h2 : t ≠ "ghcr.io" := by
      intro hc
      subst hc
      simp at h
    have h3 : ¬ (".gcr.io".data.isSuffixOf t.data ∨ t = "gcr.io") := by
      rintro (hs | hs)
      · rw [List.isSuffixOf_iff_suffix] at hs
        have hdot : '.' ∈ t.data := hs.mem (by decide)
        have hany : t.data.any (fun r => r = '.') = true :=
          List.any_eq_true.mpr ⟨'.', hdot, by simp⟩
        rw [hany] at h
        cases h
      · subst hs
        simp at h
    have h4 : ¬ t.data.any (fun r => r = '.') = true := by simp [h]
    unfold resolveFull GhcrWithImageRoutingTarget
    rw [if_neg h1, if_neg h2, if_neg h3, if_neg h4]
  · intro d
    refine ⟨rfl, rfl, rfl, fun h1 h2 h3 => ?_⟩
    unfold GhcrToTargetUpstream
    rw [if_neg (by simp), if_neg h2, if_neg h3, if_neg h1]

/-- C4 witness: the amended theorem applied at concrete inputs. -/
theorem spec_c4_witness :
    resolveFull "eu.gcr.io" "dockerhub" = Except.ok "eu.gcr.io" ∧
    resolveFull "foo" "quay.io" = GhcrToTargetUpstream "" "quay.io" := by
  exact ⟨spec_c4.2.2.1 "eu.gcr.io" "dockerhub" (by decide),
    spec_c4.2.2.2.2.1 "foo" "quay.io" (by decide)⟩

/-! ### C6: the Matcher never returns a partial result -/

theorem dispatch_ok_values {a r : List Char} {m : String}
    (h : githubActionDispatch a r = Except.ok m) :
    m = "releases" ∨ m = "blob" ∨ m = "raw" ∨ m = "clone" := by
  unfold githubActionDispatch at h
  split_ifs at h <;> simp_all

theorem take_succ_ne_nil {l : List Char} {i : Nat} (hl : l ≠ []) :
    l.take (i + 1) ≠ [] := by
  rw [Ne, List.take_eq_nil_iff]
  push_neg
  exact ⟨by omega, hl⟩

theorem githubBranch_spec (l : List Char) :
    ((githubBranch l).err ≠ none ∧ (githubBranch l).user = "" ∧
      (githubBranch l).repo = "" ∧ (githubBranch l).matcher = "") ∨
    ((githubBranch l).err = none ∧ (githubBranch l).user ≠ "" ∧ (githubBranch l).repo ≠ "" ∧
      ((githubBranch l).matcher = "releases" ∨ (githubBranch l).matcher = "blob" ∨
        (githubBranch l).matcher = "raw" ∨ (githubBranch l).matcher = "clone")) := by
  unfold githubBranch
  cases h1 : firstSlash l with
  | none => left; simp [h1, mErr]
  | some i =>
    cases i with
    | zero => left; simp [h1, mErr]
    | succ i' =>
      have huser := asString_ne_empty (take_succ_ne_nil (l := l) (i := i') (firstSlash_ne_nil h1))
      cases h2 : firstSlash (l.drop (i' + 1 + 1)) with
      | none => left; simp [h1, h2, mErr]
      | some j =>
        cases j with
        | zero => left; simp [h1, h2, mErr]
        | succ j' =>
          have hrepo := asString_ne_empty
            (take_succ_ne_nil (l := l.drop (i' + 1 + 1)) (i := j') (firstSlash_ne_nil h2))
          simp only [h1, h2]
          by_cases h3 : ((l.drop (i' + 1 + 1)).drop (j' + 1 + 1)).length = 0
          · rw [if_pos h3]
            left
            simp [mErr]
          · rw [if_neg h3]
            cases h4 : githubActionDispatch
                (firstSegment ((l.drop (i' + 1 + 1)).drop (j' + 1 + 1)))
                ((l.drop (i' + 1 + 1)).drop (j' + 1 + 1)) with
            | ok m =>
              right
              exact ⟨rfl, huser, hrepo, dispatch_ok_values h4⟩
            | error e =>
              left
              simp

theorem rawBranch_spec (l : List Char) :
    ((rawBranch l).err ≠ none ∧ (rawBranch l).user = "" ∧
      (rawBranch l).repo = "" ∧ (rawBranch l).matcher = "") ∨
    ((rawBranch l).err = none ∧ (rawBranch l).user ≠ "" ∧ (rawBranch l).repo ≠ "" ∧
      (rawBranch l).matcher = "raw") := by
  unfold rawBranch
  cases h1 : firstSlash l with
  | none => left; simp [h1, mErr]
  | some i =>
    cases i with
    | zero => left; simp [h1, mErr]
    | succ i' =>
      have huser := asString_ne_empty (take_succ_ne_nil (l := l) (i := i') (firstSlash_ne_nil h1))
      cases h2 : firstSlash (l.drop (i' + 1 + 1)) with
      | none => left; simp [h1, h2, mErr]
      | some j =>
        cases j with
        | zero => left; simp [h1, h2, mErr]
        | succ j' =>
          have hrepo := asString_ne_empty
            (take_succ_ne_nil (l := l.drop (i' + 1 + 1)) (i := j') (firstSlash_ne_nil h2))
          simp only [h1, h2]
          by_cases h3 : ((l.drop (i' + 1 + 1)).drop (j' + 1 + 1)).length = 0
          · rw [if_pos h3]
            left
            simp [mErr]
          · rw [if_neg h3]
            right
            exact ⟨rfl, huser, hrepo, rfl⟩

theorem gistBranch_spec (l : List Char) :
    ((gistBranch l).err ≠ none ∧ (gistBranch l).user = "" ∧
      (gistBranch l).repo = "" ∧ (gistBranch l).matcher = "") ∨
    ((gistBranch l).err = none ∧ (gistBranch l).user ≠ "" ∧ (gistBranch l).repo = "" ∧
      (gistBranch l).matcher = "gist") := by
  unfold gistBranch
  cases h1 : firstSlash l with
  | none =>
    simp only [h1]
    by_cases h2 : l.length > 0
    · rw [if_pos h2]
      right
      exact ⟨rfl, asString_ne_empty (by intro hc; subst hc; simp at h2), rfl, rfl⟩
    · rw [if_neg h2]
      left; simp [mErr]
  | some i =>
    have hl : l ≠ [] := firstSlash_ne_nil h1
    cases i with
    | zero =>
      simp only [h1]
      rw [if_pos (List.length_pos.mpr hl)]
      right
      exact ⟨rfl, asString_ne_empty hl, rfl, rfl⟩
    | succ i' =>
      simp only [h1]
      right
      exact ⟨by trivial, asString_ne_empty (take_succ_ne_nil hl), by trivial, by trivial⟩

theorem apiBranch_spec (l : List Char) (cfg : AuthCfg) :
    ((apiBranch l cfg).err ≠ none ∧ (apiBranch l cfg).user = "" ∧
      (apiBranch l cfg).repo = "" ∧ (apiBranch l cfg).matcher = "") ∨
    ((apiBranch l cfg).err = none ∧ (apiBranch l cfg).matcher = "api") := by
  unfold apiBranch
  split_ifs with h1
  · left; simp [mErr]
  all_goals exact Or.inr ⟨rfl, rfl⟩

/-- C6: the Matcher never returns a partial result — every classified error
carries empty owner, repo, and actionKind fields; and every success carries
the segments mandatory for its class non-empty (owner and repo for
`releases`/`blob`/`clone`/`raw`, owner for `gist`). -/
theorem spec_c6 (s : String) (cfg : AuthCfg) :
    ((Matcher s cfg).err ≠ none →
      (Matcher s cfg).user = "" ∧ (Matcher s cfg).repo = "" ∧
        (Matcher s cfg).matcher = "") ∧
    ((Matcher s cfg).err = none →
      (((Matcher s cfg).matcher = "releases" ∨ (Matcher s cfg).matcher = "blob" ∨
        (Matcher s cfg).matcher = "clone" ∨ (Matcher s cfg).matcher = "raw") →
        (Matcher s cfg).user ≠ "" ∧ (Matcher s cfg).repo ≠ "") ∧
      ((Matcher s cfg).matcher = "gist" → (Matcher s cfg).user ≠ "")) := by
  have hmain :
      ((Matcher s cfg).err ≠ none ∧ (Matcher s cfg).user = "" ∧
        (Matcher s cfg).repo = "" ∧ (Matcher s cfg).matcher = "") ∨
      ((Matcher s cfg).err = none ∧
        (((Matcher s cfg).matcher = "releases" ∨ (Matcher s cfg).matcher = "blob" ∨
          (Matcher s cfg).matcher = "clone" ∨ (Matcher s cfg).matcher = "raw") →
          (Matcher s cfg).user ≠ "" ∧ (Matcher s cfg).repo ≠ "") ∧
        ((Matcher s cfg).matcher = "gist" → (Matcher s cfg).user ≠ "")) := by
    unfold Matcher matcherCore
    split_ifs with h1 h2 h3 h4 h5 h6
    · left; simp [mErr]
    · rcases githubBranch_spec (s.data.drop githubPrefixL.length) with ⟨he, hu, hr, hm⟩ | ⟨he, hu, hr, hm⟩
      · left; exact ⟨he, hu, hr, hm⟩
      · right
        refine ⟨he, fun _ => ⟨hu, hr⟩, fun hg => hu⟩
    · rcases rawBranch_spec (s.data.drop rawPrefixL.length) with ⟨he, hu, hr, hm⟩ | ⟨he, hu, hr, hm⟩
      · left; exact ⟨he, hu, hr, hm⟩
      · right
        exact ⟨he, fun _ => ⟨hu, hr⟩, fun _ => hu⟩
    · rcases gistBranch_spec (s.data.drop gistPrefixL.length) with ⟨he, hu, hr, hm⟩ | ⟨he, hu, hr, hm⟩
      · left; exact ⟨he, hu, hr, hm⟩
      · right
        refine ⟨he, fun hk => ?_, fun _ => hu⟩
        rw [hm] at hk
        rcases hk with h | h | h | h <;> exact absurd h (by decide)
    · rcases gistBranch_spec (s.data.drop gistContentPrefixL.length) with ⟨he, hu, hr, hm⟩ | ⟨he, hu, hr, hm⟩
      · left; exact ⟨he, hu, hr, hm⟩
      · right
        refine ⟨he, fun hk => ?_, fun _ => hu⟩
        rw [hm] at hk
        rcases hk with h | h | h | h <;> exact absurd h (by decide)
    · rcases apiBranch_spec (s.data.drop apiPrefixL.length) cfg with ⟨he, hu, hr, hm⟩ | ⟨he, hm⟩
      · left; exact ⟨he, hu, hr, hm⟩
      · right
        refine ⟨he, fun hk => ?_, fun hg => ?_⟩
        · rw [hm] at hk
          rcases hk with h | h | h | h <;> exact absurd h (by decide)
        · rw [hm] at hg
          exact absurd hg (by decide)
    · left; simp [mErr]
  rcases hmain with ⟨he, hu, hr, hm⟩ | ⟨he, hok⟩
  · exact ⟨fun _ => ⟨hu, hr, hm⟩, fun h0 => absurd h0 he⟩
  · exact ⟨fun h0 => absurd he h0, fun _ => hok⟩

/-- C6 witness: the theorem applied at a concrete blob URL and a concrete
error input. -/
theorem spec_c6_witness :
    ((Matcher "https://github.com/a/b/blob/main/x" ⟨false, "", false⟩).user ≠ "" ∧
      (Matcher "https://github.com/a/b/blob/main/x" ⟨false, "", false⟩).repo ≠ "") ∧
    (Matcher "https://github.com/onlyuser" ⟨false, "", false⟩).user = "" ∧
      (Matcher "https://github.com/onlyuser" ⟨false, "", false⟩).repo = "" ∧
      (Matcher "https://github.com/onlyuser" ⟨false, "", false⟩).matcher = "" := by
  refine ⟨((spec_c6 "https://github.com/a/b/blob/main/x" ⟨false, "", false⟩).2
    (by decide)).1 (by decide), (spec_c6 "https://github.com/onlyuser" ⟨false, "", false⟩).1 (by decide)⟩

/-! ### C7: gist URLs -/

/-- C7 counterexample: the claim says a gist input whose owner segment is
empty is rejected with a 400 error.  But for
`https://gist.github.com//abc` — whose owner segment (the text before the
first `/`) is empty — Go's `i <= 0 && len(remaining) > 0` path returns
SUCCESS with the whole remainder `"/abc"` as the owner and no error. -/
theorem spec_c7_counterexample :
    Matcher "https://gist.github.com//abc" ⟨false, "", false⟩ =
      ⟨"/abc", "", "gist", none⟩ ∧
    (Matcher "https://gist.github.com//abc" ⟨false, "", false⟩).err = none := by
  exact ⟨by decide, by decide⟩

/-- C7 (amended): for gist URLs the owner is mandatory only in the sense
that an input with nothing after the prefix is rejected with 400
"malformed gist url: missing user".  Whenever anything follows the prefix
the Matcher succeeds with actionKind `gist` and an empty repo field —
taking as owner the segment before the first `/` when that slash sits at a
positive index, and the ENTIRE remainder otherwise (so a leading slash
yields an owner beginning with `/` rather than a 400), whether or not a
gist id follows. -/
theorem spec_c7 (tail : List Char) (cfg : AuthCfg) :
    (matcherCore (gistPrefixL ++ tail) cfg = gistBranch tail ∧
      matcherCore (gistContentPrefixL ++ tail) cfg = gistBranch tail) ∧
    (tail = [] → gistBranch tail = mErr 400 "malformed gist url: missing user") ∧
    (tail ≠ [] → firstSlash tail = none →
      gistBranch tail = ⟨tail.asString, "", "gist", none⟩) ∧
    (firstSlash tail = some 0 → gistBranch tail = ⟨tail.asString, "", "gist", none⟩) ∧
    (∀ i, firstSlash tail = some (i + 1) →
      gistBranch tail = ⟨(tail.take (i + 1)).asString, "", "gist", none⟩) := by
  refine ⟨⟨rfl, rfl⟩, ?_, ?_, ?_, ?_⟩
  · intro h
    subst h
    rfl
  · intro hne h
    unfold gistBranch
    rw [h, if_pos (List.length_pos.mpr hne)]
  · intro h
    unfold gistBranch
    rw [h, if_pos (List.length_pos.mpr (firstSlash_ne_nil h))]
  · intro i h
    unfold gistBranch
    rw [h]
    rfl

/-- C7 witness: the amended theorem applied at `gist.github.com/alice`. -/
theorem spec_c7_witness :
    Matcher "https://gist.github.com/alice" ⟨false, "", false⟩ =
      ⟨"alice", "", "gist", none⟩ := by
  have h := spec_c7 "alice".data ⟨false, "", false⟩
  calc Matcher "https://gist.github.com/alice" ⟨false, "", false⟩
      = matcherCore (gistPrefixL ++ "alice".data) ⟨false, "", false⟩ := rfl
    _ = gistBranch "alice".data := h.1.1
    _ = ⟨"alice", "", "gist", none⟩ := h.2.2.1 (by decide) (by decide)

/-! ### C8: github.com action dispatch -/

/-- C8: for `github.com/<owner>/<repo>/<action>/...` inputs with non-empty,
slash-free owner and repo segments, the Matcher's result is exactly the
action dispatch applied to the tail after the repo segment; and the
dispatch maps `releases/download/...` to `releases`, a `releases` action
without the download snippet to a 400 error, `archive` to `releases`,
`blob` to `blob`, `raw` to `raw`, `info` and `git-upload-pack` to `clone`,
and every other action token to a 400 unsupported-action error. -/
theorem spec_c8 :
    (∀ (o r rest : List Char) (cfg : AuthCfg),
      (∀ c ∈ o, ¬ c = '/') → o ≠ [] → (∀ c ∈ r, ¬ c = '/') → r ≠ [] → rest ≠ [] →
      matcherCore (githubPrefixL ++ (o ++ '/' :: (r ++ '/' :: rest))) cfg =
        (match githubActionDispatch (firstSegment rest) rest with
         | Except.ok m => ⟨o.asString, r.asString, m, none⟩
         | Except.error e => ⟨"", "", "", some e⟩)) ∧
    (∀ rest : List Char,
      firstSegment (releasesDownloadSnippetL ++ rest) = "releases".data ∧
      githubActionDispatch (firstSegment (releasesDownloadSnippetL ++ rest))
        (releasesDownloadSnippetL ++ rest) = Except.ok "releases") ∧
    (∀ rem3 : List Char, firstSegment rem3 = "releases".data →
      ¬ hasPrefixL releasesDownloadSnippetL rem3 →
      githubActionDispatch (firstSegment rem3) rem3 =
        Except.error (400, "malformed github path: not a releases download url")) ∧
    (∀ rem3 : List Char, firstSegment rem3 = "archive".data →
      githubActionDispatch (firstSegment rem3) rem3 = Except.ok "releases") ∧
    (∀ rem3 : List Char, firstSegment rem3 = "blob".data →
      githubActionDispatch (firstSegment rem3) rem3 = Except.ok "blob") ∧
    (∀ rem3 : List Char, firstSegment rem3 = "raw".data →
      githubActionDispatch (firstSegment rem3) rem3 = Except.ok "raw") ∧
    (∀ rem3 : List Char,
      (firstSegment rem3 = "info".data ∨ firstSegment rem3 = "git-upload-pack".data) →
      githubActionDispatch (firstSegment rem3) rem3 = Except.ok "clone") ∧
    (∀ a rem3 : List Char,
      a ≠ "releases".data → a ≠ "archive".data → a ≠ "blob".data → a ≠ "raw".data →
      a ≠ "info".data → a ≠ "git-upload-pack".data →
      githubActionDispatch a rem3 =
        Except.error (400, "unsupported github action: " ++ a.asString)) := by
  refine ⟨?_, ?_, ?_, ?_, ?_, ?_, ?_, ?_⟩
  · intro o r rest cfg ho hone hr hrne hrest
    have key : matcherCore (githubPrefixL ++ (o ++ '/' :: (r ++ '/' :: rest))) cfg =
        githubBranch (o ++ '/' :: (r ++ '/' :: rest)) := rfl
    rw [key]
    obtain ⟨k, hk⟩ : ∃ k, o.length = k + 1 := by
      cases o with
      | nil => exact absurd rfl hone
      | cons a t => exact ⟨t.length, by simp⟩
    obtain ⟨k2, hk2⟩ : ∃ k2, r.length = k2 + 1 := by
      cases r with
      | nil => exact absurd rfl hrne
      | cons a t => exact ⟨t.length, by simp⟩
    have h1 : firstSlash (o ++ '/' :: (r ++ '/' :: rest)) = some (k + 1) := by
      rw [firstSlash_append_slash o _ ho, hk]
    have htake : (o ++ '/' :: (r ++ '/' :: rest)).take (k + 1) = o := by
      rw [← hk]
      exact List.take_left o _
    have hdrop : (o ++ '/' :: (r ++ '/' :: rest)).drop (k + 1 + 1) = r ++ '/' :: rest := by
      have hlen1 : (o ++ ['/']).length = k + 1 + 1 := by simp [hk]
      rw [List.append_cons o '/' (r ++ '/' :: rest)]
      exact List.drop_left' hlen1
    have h2 : firstSlash (r ++ '/' :: rest) = some (k2 + 1) := by
      rw [firstSlash_append_slash r _ hr, hk2]
    have htake2 : (r ++ '/' :: rest).take (k2 + 1) = r := by
      rw [← hk2]
      exact List.take_left r _
    have hdrop2 : (r ++ '/' :: rest).drop (k2 + 1 + 1) = rest := by
      have hlen2 : (r ++ ['/']).length = k2 + 1 + 1 := by simp [hk2]
      rw [List.append_cons r '/' rest]
      exact List.drop_left' hlen2
    have hlen : ¬ rest.length = 0 := by
      simpa [List.length_eq_zero] using hrest
    unfold githubBranch
    simp only [h1, hdrop, h2, htake, htake2, hdrop2]
    rw [if_neg hlen]
  · intro rest
    exact ⟨rfl, rfl⟩
  · intro rem3 h hnp
    rw [h]
    unfold githubActionDispatch
    rw [if_pos rfl, if_neg hnp]
  · intro rem3 h
    rw [h]
    rfl
  · intro rem3 h
    rw [h]
    rfl
  · intro rem3 h
    rw [h]
    rfl
  · intro rem3 h
    rcases h with h | h <;> rw [h] <;> rfl
  · intro a rem3 h1 h2 h3 h4 h5 h6
    unfold githubActionDispatch
    rw [if_neg h1, if_neg h2, if_neg h3, if_neg h4, if_neg (by rintro (h | h) <;> [exact h5 h; exact h6 h])]

/-- C8 witness: the bridge applied at a concrete archive URL. -/
theorem spec_c8_witness :
    Matcher "https://github.com/a/b/archive/v1.zip" ⟨false, "", false⟩ =
      ⟨"a", "b", "releases", none⟩ := by
  have h := spec_c8.1 "a".data "b".data "archive/v1.zip".data ⟨false, "", false⟩
    (by decide) (by decide) (by decide) (by decide) (by decide)
  calc Matcher "https://github.com/a/b/archive/v1.zip" ⟨false, "", false⟩
      = matcherCore (githubPrefixL ++
          ("a".data ++ '/' :: ("b".data ++ '/' :: "archive/v1.zip".data)))
          ⟨false, "", false⟩ := rfl
    _ = ⟨"a", "b", "releases", none⟩ := by rw [h]; rfl

/-! ### Engine phase lemmas -/

theorem redirectPhase_preserves (env : Env) (ua : String) (r : HResp) (tr : Trace) :
    (redirectPhase env ua r tr).2.challengeCalled = tr.challengeCalled ∧
    (redirectPhase env ua r tr).2.retrySent = tr.retrySent ∧
    (redirectPhase env ua r tr).2.cachePut = tr.cachePut ∧
    (redirectPhase env ua r tr).2.initialAuth = tr.initialAuth ∧
    (redirectPhase env ua r tr).2.initialBodyBytes = tr.initialBodyBytes ∧
    (redirectPhase env ua r tr).2.retryAuth = tr.retryAuth ∧
    (redirectPhase env ua r tr).2.retryBodyBytes = tr.retryBodyBytes ∧
    (redirectPhase env ua r tr).2.redirectSent.length ≤ tr.redirectSent.length + 1 := by
  unfold redirectPhase
  repeat' split
  all_goals simp

theorem redirectPhase_stepres_const (env : Env) (ua : String) (r : HResp) (tr tr' : Trace) :
    (redirectPhase env ua r tr).1 = (redirectPhase env ua r tr').1 := by
  unfold redirectPhase
  repeat' split
  all_goals rfl

theorem authPhase_preserves (env : Env) (image : Option ImageInfo) (reqPath : String)
    (r : HResp) (tr : Trace) :
    (authPhase env image reqPath r tr).2.redirectSent = tr.redirectSent ∧
    (authPhase env image reqPath r tr).2.initialAuth = tr.initialAuth ∧
    (authPhase env image reqPath r tr).2.initialBodyBytes = tr.initialBodyBytes ∧
    (authPhase env image reqPath r tr).2.retrySent ≤ tr.retrySent + 1 := by
  unfold authPhase
  repeat' split
  all_goals simp
  all_goals (repeat' split)
  all_goals simp

theorem authPhase_challenge_conditions (env : Env) (image : Option ImageInfo)
    (reqPath : String) (r : HResp) (tr : Trace)
    (h0 : tr.challengeCalled = false)
    (h : (authPhase env image reqPath r tr).2.challengeCalled = true) :
    (r.status = 401 ∨ r.status = 404) ∧ reqPath ≠ "/v2/" ∧ image.isSome = true := by
  by_cases h1 : r.status = 401 ∨ r.status = 404
  · by_cases h2 : reqPath ≠ "/v2/"
    · cases image with
      | none =>
        unfold authPhase at h
        rw [if_pos h1, if_pos h2] at h
        simp [h0] at h
      | some img => exact ⟨h1, h2, rfl⟩
    · unfold authPhase at h
      rw [if_pos h1, if_neg h2] at h
      simp [h0] at h
  · unfold authPhase at h
    rw [if_neg h1] at h
    simp [h0] at h

theorem authPhase_retry_implies_challenge (env : Env) (image : Option ImageInfo)
    (reqPath : String) (r : HResp) (tr : Trace)
    (h : (authPhase env image reqPath r tr).2.retrySent ≠ tr.retrySent) :
    (authPhase env image reqPath r tr).2.challengeCalled = true := by
  unfold authPhase at h ⊢
  repeat' split at h
  all_goals repeat' split
  all_goals try simp_all
  all_goals repeat' split
  all_goals simp_all

theorem postAuthPipeline_preserves (cfg : EngineCfg) (env : Env) (ua : String)
    (r : HResp) (tr : Trace) :
    (postAuthPipeline cfg env ua r tr).2.challengeCalled = tr.challengeCalled ∧
    (postAuthPipeline cfg env ua r tr).2.retrySent = tr.retrySent ∧
    (postAuthPipeline cfg env ua r tr).2.cachePut = tr.cachePut ∧
    (postAuthPipeline cfg env ua r tr).2.initialAuth = tr.initialAuth ∧
    (postAuthPipeline cfg env ua r tr).2.initialBodyBytes = tr.initialBodyBytes ∧
    (postAuthPipeline cfg env ua r tr).2.retryAuth = tr.retryAuth ∧
    (postAuthPipeline cfg env ua r tr).2.retryBodyBytes = tr.retryBodyBytes ∧
    (postAuthPipeline cfg env ua r tr).2.redirectSent.length ≤ tr.redirectSent.length + 1 := by
  have hp := redirectPhase_preserves env ua r tr
  unfold postAuthPipeline
  rcases hR : redirectPhase env ua r tr with ⟨sr, tr2⟩
  rw [hR] at hp
  cases sr with
  | done o => simpa using hp
  | cont r2 => simpa using hp

theorem postAuthPipeline_outcome (cfg : EngineCfg) (env : Env) (ua : String)
    (r : HResp) (tr : Trace) :
    (postAuthPipeline cfg env ua r tr).1 =
      (match (redirectPhase env ua r tr).1 with
       | StepRes.done o => o
       | StepRes.cont r2 => (finalizeResp cfg r2).1) := by
  unfold postAuthPipeline
  rcases hR : redirectPhase env ua r tr with ⟨sr, tr2⟩
  cases sr with
  | done o => rfl
  | cont r2 => rfl

theorem postAuthPipeline_outcome_const (cfg : EngineCfg) (env : Env) (ua : String)
    (r : HResp) (tr tr' : Trace) :
    (postAuthPipeline cfg env ua r tr).1 = (postAuthPipeline cfg env ua r tr').1 := by
  rw [postAuthPipeline_outcome, postAuthPipeline_outcome,
    redirectPhase_stepres_const env ua r tr tr']

theorem authPhase_pass (env : Env) (image : Option ImageInfo) (reqPath : String)
    (r : HResp) (tr : Trace) (h : ¬ (r.status = 401 ∨ r.status = 404)) :
    authPhase env image reqPath r tr = (StepRes.cont r, tr) := by
  unfold authPhase
  rw [if_neg h]

theorem authPhase_v2 (env : Env) (image : Option ImageInfo) (reqPath : String)
    (r : HResp) (tr : Trace) (h : reqPath = "/v2/") :
    authPhase env image reqPath r tr = (StepRes.cont r, tr) := by
  unfold authPhase
  by_cases h1 : r.status = 401 ∨ r.status = 404
  · rw [if_pos h1, if_neg (not_not_intro h)]
  · rw [if_neg h1]

theorem authPhase_retry_eq (env : Env) (img : ImageInfo) (reqPath : String)
    (r : HResp) (tr : Trace) (r2 : HResp)
    (hs : r.status = 401 ∨ r.status = 404) (hp : reqPath ≠ "/v2/")
    (ht : env.challengeToken ≠ "") (hb : env.retryBuildOk = true)
    (hr : env.retry = some r2) :
    authPhase env (some img) reqPath r tr = (StepRes.cont r2,
      { tr with
        challengeCalled := true
        closed := tr.closed ++ [r.body]
        cachePut := some (img.image, env.challengeToken)
        retrySent := tr.retrySent + 1
        retryAuth := some ("Bearer " ++ env.challengeToken)
        retryBodyBytes := some tr.initialBodyBytes }) := by
  unfold authPhase
  rw [if_pos hs, if_pos hp]
  simp only [hb, hr]
  rw [if_pos ht]
  simp

theorem authPhase_tokenEmpty (env : Env) (img : ImageInfo) (reqPath : String)
    (r : HResp) (tr : Trace)
    (hs : r.status = 401 ∨ r.status = 404) (hp : reqPath ≠ "/v2/")
    (ht : env.challengeToken = "") :
    authPhase env (some img) reqPath r tr =
      (StepRes.cont r, { tr with challengeCalled := true }) := by
  unfold authPhase
  rw [if_pos hs, if_pos hp]
  simp only [ht]
  simp

theorem authPhase_retryBodyBytes (env : Env) (image : Option ImageInfo)
    (reqPath : String) (r : HResp) (tr : Trace) :
    (authPhase env image reqPath r tr).2.retryBodyBytes = tr.retryBodyBytes ∨
    (authPhase env image reqPath r tr).2.retryBodyBytes = some tr.initialBodyBytes := by
  unfold authPhase
  repeat' split
  all_goals try simp
  all_goals repeat' split
  all_goals simp

theorem redirectPhase_pass (env : Env) (ua : String) (r : HResp) (tr : Trace)
    (h : ¬ (r.status = 302 ∨ r.status = 307)) :
    redirectPhase env ua r tr = (StepRes.cont r, tr) := by
  unfold redirectPhase
  rw [if_neg h]

theorem redirectPhase_missing_location (env : Env) (ua : String) (r : HResp) (tr : Trace)
    (h : r.status = 302 ∨ r.status = 307) (hloc : r.location = "") :
    redirectPhase env ua r tr =
      (StepRes.done (Outcome.handleErr "Redirect response missing Location header"),
        { tr with closed := tr.closed ++ [r.body] }) := by
  unfold redirectPhase
  rw [if_pos h, if_pos hloc]

theorem redirectPhase_send (env : Env) (ua : String) (r : HResp) (tr : Trace)
    (ru : GoURL) (h : r.status = 302 ∨ r.status = 307) (hloc : r.location ≠ "")
    (hru : parseGoURL r.location = some ru) (hb : env.redirectBuildOk = true) :
    (redirectPhase env ua r tr).2 =
      { tr with
        closed := tr.closed ++ [r.body]
        redirectSent := tr.redirectSent ++
          [⟨"GET", (if ¬ ru.isAbs then GoURL.resolveReference r.reqURL ru else ru).toString,
            ua, false⟩] } ∧
    (∀ r3, env.redirect = some r3 → (redirectPhase env ua r tr).1 = StepRes.cont r3) := by
  unfold redirectPhase
  rw [if_pos h, if_neg hloc, hru]
  simp only [hb]
  cases env.redirect with
  | none => exact ⟨by simp, by intro r3 hc; cases hc⟩
  | some r3 => exact ⟨by simp, by intro r3' hc; cases hc; simp⟩

theorem redirectPhase_closed_mono (env : Env) (ua : String) (r : HResp) (tr : Trace)
    {b : Nat} (hb : b ∈ tr.closed) : b ∈ (redirectPhase env ua r tr).2.closed := by
  unfold redirectPhase
  repeat' split
  all_goals simp_all

theorem postAuthPipeline_closed_mono (cfg : EngineCfg) (env : Env) (ua : String)
    (r : HResp) (tr : Trace) {b : Nat} (hb : b ∈ tr.closed) :
    b ∈ (postAuthPipeline cfg env ua r tr).2.closed := by
  have h1 := redirectPhase_closed_mono env ua r tr hb
  unfold postAuthPipeline
  rcases hR : redirectPhase env ua r tr with ⟨sr, tr2⟩
  rw [hR] at h1
  cases sr with
  | done o => exact h1
  | cont r2 => simp_all

theorem finalizeResp_noCL (cfg : EngineCfg) (r : HResp)
    (h404 : r.status ≠ 404) (hcl : r.contentLength = "") :
    finalizeResp cfg r = (Outcome.stream r.status r.body (-1) cfg.bandwidthEnabled, []) := by
  unfold finalizeResp
  rw [if_neg h404, hcl]
  simp

theorem ghcrRequest_eq (cfg : EngineCfg) (image : Option ImageInfo)
    (reqPath bb ua : String) (cache : List (String × String)) (env : Env) (r : HResp)
    (h1 : env.bodyReadOk = true) (h2 : env.buildOk = true) (h3 : env.initial = some r) :
    GhcrRequest cfg image reqPath bb ua cache env =
      (match authPhase env image reqPath r (tr1Of image bb cache) with
       | (StepRes.done o, tr) => (o, tr)
       | (StepRes.cont resp1, tr2) => postAuthPipeline cfg env ua resp1 tr2) := by
  unfold GhcrRequest
  rw [h1, h2, h3]
  rfl

theorem tr1Of_fields (image : Option ImageInfo) (bb : String)
    (cache : List (String × String)) :
    (tr1Of image bb cache).challengeCalled = false ∧
    (tr1Of image bb cache).retrySent = 0 ∧
    (tr1Of image bb cache).cachePut = none ∧
    (tr1Of image bb cache).initialBodyBytes = bb ∧
    (tr1Of image bb cache).retryBodyBytes = none ∧
    (tr1Of image bb cache).redirectSent = [] ∧
    (tr1Of image bb cache).closed = [] := by
  unfold tr1Of initTrace
  exact ⟨rfl, rfl, rfl, rfl, rfl, rfl, rfl⟩

theorem ghcrRequest_trace_bounds (cfg : EngineCfg) (image : Option ImageInfo)
    (reqPath bb ua : String) (cache : List (String × String)) (env : Env) :
    (GhcrRequest cfg image reqPath bb ua cache env).2.redirectSent.length ≤ 1 ∧
    (GhcrRequest cfg image reqPath bb ua cache env).2.retrySent ≤ 1 := by
  cases hb : env.bodyReadOk with
  | false => simp [GhcrRequest, hb, initTrace]
  | true =>
    cases hb2 : env.buildOk with
    | false => simp [GhcrRequest, hb, hb2, initTrace]
    | true =>
      cases hi : env.initial with
      | none => simp [GhcrRequest, hb, hb2, hi, tr1Of, initTrace]
      | some r =>
        rw [ghcrRequest_eq cfg image reqPath bb ua cache env r hb hb2 hi]
        have hpre := authPhase_preserves env image reqPath r (tr1Of image bb cache)
        have htr1 := tr1Of_fields image bb cache
        rcases hA : authPhase env image reqPath r (tr1Of image bb cache) with ⟨sr, tr2⟩
        rw [hA] at hpre
        cases sr with
        | done o =>
          refine ⟨?_, ?_⟩
          · rw [hpre.1, htr1.2.2.2.2.2.1]
            simp
          · calc tr2.retrySent ≤ (tr1Of image bb cache).retrySent + 1 := hpre.2.2.2
              _ ≤ 1 := by rw [htr1.2.1]
        | cont r1 =>
          have hpp := postAuthPipeline_preserves cfg env ua r1 tr2
          refine ⟨?_, ?_⟩
          · calc (postAuthPipeline cfg env ua r1 tr2).2.redirectSent.length
                ≤ tr2.redirectSent.length + 1 := hpp.2.2.2.2.2.2.2
              _ ≤ 1 := by rw [hpre.1, htr1.2.2.2.2.2.1]; simp
          · rw [hpp.2.1]
            calc tr2.retrySent ≤ (tr1Of image bb cache).retrySent + 1 := hpre.2.2.2
              _ ≤ 1 := by rw [htr1.2.1]

/-! ### C1: the auth-retry step -/

/-- A concrete engine run: initial `401`, successful challenge, retried
response `302` with an absolute `Location`, follow-up `200`. -/
def c1URL : GoURL := ⟨"https", "ghcr.io", "/v2/liba/app/manifests/latest", ""⟩

def c1Img : ImageInfo := ⟨"liba", "app", "liba/app"⟩

def c1Env : Env :=
  { bodyReadOk := true
    buildOk := true
    initial := some ⟨401, "", "", c1URL, 0⟩
    challengeToken := "tok"
    retryBuildOk := true
    retry := some ⟨302, "https://cdn.example.com/blob", "", c1URL, 1⟩
    redirectBuildOk := true
    redirect := some ⟨200, "", "", ⟨"https", "cdn.example.com", "/blob", ""⟩, 2⟩ }

/-- C1 counterexample: the claim says that when the auth retry fires with a
fresh token, "the client observes the retried response's status regardless
of its outcome".  In this run the retry fires exactly once (`retrySent = 1`)
and the retried response has status `302` — but the redirect step then
replaces it with the follow-up response, so the client observes `200`, not
the retried `302`. -/
theorem spec_c1_counterexample :
    (GhcrRequest ⟨10, false⟩ (some c1Img) "/v2/liba/app/manifests/latest" "B" "UA" []
      c1Env).2.retrySent = 1 ∧
    c1Env.retry.map HResp.status = some 302 ∧
    (GhcrRequest ⟨10, false⟩ (some c1Img) "/v2/liba/app/manifests/latest" "B" "UA" []
      c1Env).1 = Outcome.stream 200 2 (-1) false := by
  exact ⟨by decide, by decide, by decide⟩

/-- C1 (amended): the auth-retry step fires only when the initial upstream
status is 401 or 404, the original request path is not exactly `/v2/`, and
an image identity exists; at most one resend ever happens.  When the
challenge yields a non-empty token the engine stores it in the cache under
the image identity, closes the stale response body, resends exactly once
with the fresh `Authorization: Bearer` header and the same buffered body
bytes, and the retried response replaces the working response for the rest
of the pipeline — so the client observes the retried response's status
whenever the remaining redirect/404/size-limit steps do not supersede it
(NOT regardless of its outcome).  When the challenge yields no token the
original response is kept and processing continues.  A 401/404 on `/v2/`
is never retried. -/
theorem spec_c1 :
    (∀ (cfg : EngineCfg) (image : Option ImageInfo) (reqPath bb ua : String)
        (cache : List (String × String)) (env : Env),
      (GhcrRequest cfg image reqPath bb ua cache env).2.challengeCalled = true →
      ∃ r, env.initial = some r ∧ (r.status = 401 ∨ r.status = 404) ∧
        reqPath ≠ "/v2/" ∧ image.isSome = true) ∧
    (∀ (cfg : EngineCfg) (image : Option ImageInfo) (reqPath bb ua : String)
        (cache : List (String × String)) (env : Env),
      (GhcrRequest cfg image reqPath bb ua cache env).2.retrySent ≤ 1) ∧
    (∀ (cfg : EngineCfg) (img : ImageInfo) (reqPath bb ua : String)
        (cache : List (String × String)) (env : Env) (r r2 : HResp),
      env.bodyReadOk = true → env.buildOk = true → env.initial = some r →
      (r.status = 401 ∨ r.status = 404) → reqPath ≠ "/v2/" →
      env.challengeToken ≠ "" → env.retryBuildOk = true → env.retry = some r2 →
      (GhcrRequest cfg (some img) reqPath bb ua cache env).2.cachePut =
        some (img.image, env.challengeToken) ∧
      r.body ∈ (GhcrRequest cfg (some img) reqPath bb ua cache env).2.closed ∧
      (GhcrRequest cfg (some img) reqPath bb ua cache env).2.retrySent = 1 ∧
      (GhcrRequest cfg (some img) reqPath bb ua cache env).2.retryAuth =
        some ("Bearer " ++ env.challengeToken) ∧
      (GhcrRequest cfg (some img) reqPath bb ua cache env).2.retryBodyBytes = some bb ∧
      (GhcrRequest cfg (some img) reqPath bb ua cache env).1 =
        (postAuthPipeline cfg env ua r2 (tr1Of (some img) bb cache)).1 ∧
      (¬ (r2.status = 302 ∨ r2.status = 307) → r2.status ≠ 404 → r2.contentLength = "" →
        (GhcrRequest cfg (some img) reqPath bb ua cache env).1 =
          Outcome.stream r2.status r2.body (-1) cfg.bandwidthEnabled)) ∧
    (∀ (cfg : EngineCfg) (img : ImageInfo) (reqPath bb ua : String)
        (cache : List (String × String)) (env : Env) (r : HResp),
      env.bodyReadOk = true → env.buildOk = true → env.initial = some r →
      (r.status = 401 ∨ r.status = 404) → reqPath ≠ "/v2/" →
      env.challengeToken = "" →
      (GhcrRequest cfg (some img) reqPath bb ua cache env).2.retrySent = 0 ∧
      (GhcrRequest cfg (some img) reqPath bb ua cache env).2.cachePut = none ∧
      (GhcrRequest cfg (some img) reqPath bb ua cache env).2.challengeCalled = true ∧
      (GhcrRequest cfg (some img) reqPath bb ua cache env).1 =
        (postAuthPipeline cfg env ua r (tr1Of (some img) bb cache)).1) ∧
    (∀ (cfg : EngineCfg) (image : Option ImageInfo) (bb ua : String)
        (cache : List (String × String)) (env : Env),
      (GhcrRequest cfg image "/v2/" bb ua cache env).2.challengeCalled = false ∧
      (GhcrRequest cfg image "/v2/" bb ua cache env).2.retrySent = 0) := by
  have hV2 : ∀ (cfg : EngineCfg) (image : Option ImageInfo) (reqPath bb ua : String)
      (cache : List (String × String)) (env : Env), reqPath = "/v2/" →
      (GhcrRequest cfg image reqPath bb ua cache env).2.challengeCalled = false ∧
      (GhcrRequest cfg image reqPath bb ua cache env).2.retrySent = 0 := by
    intro cfg image reqPath bb ua cache env hpath
    cases hb : env.bodyReadOk with
    | false => simp [GhcrRequest, hb, initTrace]
    | true =>
      cases hb2 : env.buildOk with
      | false => simp [GhcrRequest, hb, hb2, initTrace]
      | true =>
        cases hi : env.initial with
        | none => simp [GhcrRequest, hb, hb2, hi, tr1Of, initTrace]
        | some r =>
          rw [ghcrRequest_eq cfg image reqPath bb ua cache env r hb hb2 hi,
            authPhase_v2 env image reqPath r (tr1Of image bb cache) hpath]
          have hpp := postAuthPipeline_preserves cfg env ua r (tr1Of image bb cache)
          have htr1 := tr1Of_fields image bb cache
          exact ⟨by rw [hpp.1, htr1.1], by rw [hpp.2.1, htr1.2.1]⟩
  refine ⟨?_, ?_, ?_, ?_, ?_⟩
  · intro cfg image reqPath bb ua cache env h
    cases hb : env.bodyReadOk with
    | false => rw [GhcrRequest] at h; simp [hb, initTrace] at h
    | true =>
      cases hb2 : env.buildOk with
      | false => rw [GhcrRequest] at h; simp [hb, hb2, initTrace] at h
      | true =>
        cases hi : env.initial with
        | none => rw [GhcrRequest] at h; simp [hb, hb2, hi, tr1Of, initTrace] at h
        | some r =>
          rw [ghcrRequest_eq cfg image reqPath bb ua cache env r hb hb2 hi] at h
          have htr1 := tr1Of_fields image bb cache
          rcases hA : authPhase env image reqPath r (tr1Of image bb cache) with ⟨sr, tr2⟩
          rw [hA] at h
          have hcc : tr2.challengeCalled = true := by
            cases sr with
            | done o => exact h
            | cont r1 =>
              have hpp := postAuthPipeline_preserves cfg env ua r1 tr2
              rw [← hpp.1]
              exact h
          have := authPhase_challenge_conditions env image reqPath r
            (tr1Of image bb cache) htr1.1 (by rw [hA]; exact hcc)
          exact ⟨r, rfl, this⟩
  · intro cfg image reqPath bb ua cache env
    exact (ghcrRequest_trace_bounds cfg image reqPath bb ua cache env).2
  · intro cfg img reqPath bb ua cache env r r2 h1 h2 h3 h4 h5 hne h6 h7
    have hG : GhcrRequest cfg (some img) reqPath bb ua cache env =
        postAuthPipeline cfg env ua r2
          ({ tr1Of (some img) bb cache with
            challengeCalled := true
            closed := (tr1Of (some img) bb cache).closed ++ [r.body]
            cachePut := some (img.image, env.challengeToken)
            retrySent := (tr1Of (some img) bb cache).retrySent + 1
            retryAuth := some ("Bearer " ++ env.challengeToken)
            retryBodyBytes := some (tr1Of (some img) bb cache).initialBodyBytes }) := by
      rw [ghcrRequest_eq cfg (some img) reqPath bb ua cache env r h1 h2 h3,
        authPhase_retry_eq env img reqPath r (tr1Of (some img) bb cache) r2 h4 h5 hne h6 h7]
    rw [hG]
    have htr1 := tr1Of_fields (some img) bb cache
    have hpp := postAuthPipeline_preserves cfg env ua r2
      ({ tr1Of (some img) bb cache with
        challengeCalled := true
        closed := (tr1Of (some img) bb cache).closed ++ [r.body]
        cachePut := some (img.image, env.challengeToken)
        retrySent := (tr1Of (some img) bb cache).retrySent + 1
        retryAuth := some ("Bearer " ++ env.challengeToken)
        retryBodyBytes := some (tr1Of (some img) bb cache).initialBodyBytes })
    refine ⟨by rw [hpp.2.2.1], ?_, by rw [hpp.2.1, htr1.2.1],
      by rw [hpp.2.2.2.2.2.1], by rw [hpp.2.2.2.2.2.2.1, htr1.2.2.2.1],
      postAuthPipeline_outcome_const cfg env ua r2 _ _, ?_⟩
    · exact postAuthPipeline_closed_mono cfg env ua r2 _ (by simp)
    · intro h302 h404 hcl
      rw [postAuthPipeline_outcome, redirectPhase_pass env ua r2 _ h302]
      show (finalizeResp cfg r2).1 = _
      rw [finalizeResp_noCL cfg r2 h404 hcl]
  · intro cfg img reqPath bb ua cache env r h1 h2 h3 h4 h5 ht
    have hG : GhcrRequest cfg (some img) reqPath bb ua cache env =
        postAuthPipeline cfg env ua r
          ({ tr1Of (some img) bb cache with challengeCalled := true }) := by
      rw [ghcrRequest_eq cfg (some img) reqPath bb ua cache env r h1 h2 h3,
        authPhase_tokenEmpty env img reqPath r (tr1Of (some img) bb cache) h4 h5 ht]
    rw [hG]
    have htr1 := tr1Of_fields (some img) bb cache
    have hpp := postAuthPipeline_preserves cfg env ua r
      ({ tr1Of (some img) bb cache with challengeCalled := true })
    exact ⟨by rw [hpp.2.1, htr1.2.1], by rw [hpp.2.2.1, htr1.2.2.1],
      by rw [hpp.1], postAuthPipeline_outcome_const cfg env ua r _ _⟩
  · intro cfg image bb ua cache env
    exact hV2 cfg image "/v2/" bb ua cache env rfl

/-- C1 witness: the amended theorem applied at the concrete run of the
counterexample environment, whose retried response is a 302. -/
theorem spec_c1_witness :
    (GhcrRequest ⟨10, false⟩ (some c1Img) "/v2/liba/app/manifests/latest" "B" "UA" []
      c1Env).2.cachePut = some ("liba/app", "tok") ∧
    (GhcrRequest ⟨10, false⟩ (some c1Img) "/v2/liba/app/manifests/latest" "B" "UA" []
      c1Env).2.retrySent = 1 := by
  have h := (spec_c1.2.2.1 ⟨10, false⟩ c1Img "/v2/liba/app/manifests/latest" "B" "UA" []
    c1Env ⟨401, "", "", c1URL, 0⟩ ⟨302, "https://cdn.example.com/blob", "", c1URL, 1⟩
    (by decide) (by decide) (by decide) (by decide) (by decide) (by decide) (by decide)
    (by decide))
  exact ⟨h.1, h.2.2.1⟩

/-! ### C2: the redirect step -/

theorem postAuthPipeline_redirectSent (cfg : EngineCfg) (env : Env) (ua : String)
    (r : HResp) (tr : Trace) :
    (postAuthPipeline cfg env ua r tr).2.redirectSent =
      (redirectPhase env ua r tr).2.redirectSent := by
  unfold postAuthPipeline
  rcases hR : redirectPhase env ua r tr with ⟨sr, tr2⟩
  cases sr <;> simp

/-- C2: when the working response is a 302 or 307 the engine reads
`Location` (missing is a hard error that closes the body and ends the
request), resolves a relative location against the prior response's
request URL, closes the old body, and issues exactly one follow-up — an
unconditional `GET` with no body carrying only the client's `User-Agent`;
the follow-up's response replaces the working response, and a redirect
returned by the follow-up is not followed further (no engine run ever
issues more than one follow-up). -/
theorem spec_c2 :
    (∀ (cfg : EngineCfg) (image : Option ImageInfo) (reqPath bb ua : String)
        (cache : List (String × String)) (env : Env),
      (GhcrRequest cfg image reqPath bb ua cache env).2.redirectSent.length ≤ 1) ∧
    (∀ (env : Env) (ua : String) (r : HResp) (tr : Trace),
      (r.status = 302 ∨ r.status = 307) → r.location = "" →
      redirectPhase env ua r tr =
        (StepRes.done (Outcome.handleErr "Redirect response missing Location header"),
          { tr with closed := tr.closed ++ [r.body] })) ∧
    (∀ (env : Env) (ua : String) (r : HResp) (tr : Trace) (ru : GoURL),
      (r.status = 302 ∨ r.status = 307) → r.location ≠ "" →
      parseGoURL r.location = some ru → env.redirectBuildOk = true →
      (redirectPhase env ua r tr).2.redirectSent = tr.redirectSent ++
        [⟨"GET",
          (if ¬ ru.isAbs then GoURL.resolveReference r.reqURL ru else ru).toString,
          ua, false⟩] ∧
      r.body ∈ (redirectPhase env ua r tr).2.closed ∧
      (∀ r3, env.redirect = some r3 → (redirectPhase env ua r tr).1 = StepRes.cont r3)) ∧
    (∀ (cfg : EngineCfg) (image : Option ImageInfo) (reqPath bb ua : String)
        (cache : List (String × String)) (env : Env) (r r3 : HResp) (ru : GoURL),
      env.bodyReadOk = true → env.buildOk = true → env.initial = some r →
      r.status = 302 → r.location ≠ "" → parseGoURL r.location = some ru →
      env.redirectBuildOk = true → env.redirect = some r3 →
      r3.status = 302 → r3.contentLength = "" →
      (GhcrRequest cfg image reqPath bb ua cache env).1 =
        Outcome.stream r3.status r3.body (-1) cfg.bandwidthEnabled ∧
      (GhcrRequest cfg image reqPath bb ua cache env).2.redirectSent.length = 1) := by
  refine ⟨?_, ?_, ?_, ?_⟩
  · intro cfg image reqPath bb ua cache env
    exact (ghcrRequest_trace_bounds cfg image reqPath bb ua cache env).1
  · intro env ua r tr h hloc
    exact redirectPhase_missing_location env ua r tr h hloc
  · intro env ua r tr ru h hloc hru hb
    have hsend := redirectPhase_send env ua r tr ru h hloc hru hb
    refine ⟨by rw [hsend.1], by rw [hsend.1]; simp, hsend.2⟩
  · intro cfg image reqPath bb ua cache env r r3 ru h1 h2 h3 hs hloc hru hb hr3 hs3 hcl3
    have hnot : ¬ (r.status = 401 ∨ r.status = 404) := by
      rw [hs]
      rintro (hc | hc) <;> cases hc
    have h302 : r.status = 302 ∨ r.status = 307 := Or.inl hs
    have hG : GhcrRequest cfg image reqPath bb ua cache env =
        postAuthPipeline cfg env ua r (tr1Of image bb cache) := by
      rw [ghcrRequest_eq cfg image reqPath bb ua cache env r h1 h2 h3,
        authPhase_pass env image reqPath r (tr1Of image bb cache) hnot]
    have hsend := redirectPhase_send env ua r (tr1Of image bb cache) ru h302 hloc hru hb
    constructor
    · rw [hG, postAuthPipeline_outcome, hsend.2 r3 hr3]
      show (finalizeResp cfg r3).1 = _
      rw [finalizeResp_noCL cfg r3 (by rw [hs3]; decide) hcl3]
    · rw [hG, postAuthPipeline_redirectSent, hsend.1,
        (tr1Of_fields image bb cache).2.2.2.2.2.1]
      simp

/-- C2 witness: a concrete 302-with-relative-location run of the engine.
The redirect resolves against the initial response's request URL, exactly
one follow-up is issued, and the follow-up's own 302 is not followed
further — it is streamed through. -/
theorem spec_c2_witness :
    (GhcrRequest ⟨10, false⟩ (some c1Img) "/v2/liba/app/blobs/x" "B" "UA" []
      { c1Env with
        initial := some ⟨302, "/rel/blob?x=1", "", c1URL, 0⟩
        redirect := some ⟨302, "https://elsewhere.example/x", "",
          ⟨"https", "cdn.example.com", "/blob", ""⟩, 2⟩ }).1 =
      Outcome.stream 302 2 (-1) false ∧
    (GhcrRequest ⟨10, false⟩ (some c1Img) "/v2/liba/app/blobs/x" "B" "UA" []
      { c1Env with
        initial := some ⟨302, "/rel/blob?x=1", "", c1URL, 0⟩
        redirect := some ⟨302, "https://elsewhere.example/x", "",
          ⟨"https", "cdn.example.com", "/blob", ""⟩, 2⟩ }).2.redirectSent =
      [⟨"GET", "https://ghcr.io/rel/blob?x=1", "UA", false⟩] := by
  have h := (spec_c2.2.2.2 ⟨10, false⟩ (some c1Img) "/v2/liba/app/blobs/x" "B" "UA" []
    { c1Env with
      initial := some ⟨302, "/rel/blob?x=1", "", c1URL, 0⟩
      redirect := some ⟨302, "https://elsewhere.example/x", "",
        ⟨"https", "cdn.example.com", "/blob", ""⟩, 2⟩ }
    ⟨302, "/rel/blob?x=1", "", c1URL, 0⟩
    ⟨302, "https://elsewhere.example/x", "", ⟨"https", "cdn.example.com", "/blob", ""⟩, 2⟩
    ⟨"", "", "/rel/blob", "x=1"⟩
    (by decide) (by decide) (by decide) (by decide) (by decide) (by decide) (by decide)
    (by decide) (by decide) (by decide))
  exact ⟨h.1, by decide⟩

/-! ### C3: size enforcement -/

/-- C3: for the final upstream response (one that is not a 404), the engine
parses `Content-Length`; an unparsable value is treated as unknown and size
enforcement is skipped (the body streams with size `-1`); a parsed value
exceeding `SizeLimit*1024*1024` bytes closes the body and answers the
client with a `301` redirect to the upstream response's final resolved URL,
streaming nothing; a parsed value within the ceiling streams with the
declared size.  The final conjunct ties `finalizeResp` to a full engine
run. -/
theorem spec_c3 :
    (∀ (cfg : EngineCfg) (r : HResp), r.status ≠ 404 → r.contentLength ≠ "" →
      goAtoi r.contentLength = none →
      finalizeResp cfg r =
        (Outcome.stream r.status r.body (-1) cfg.bandwidthEnabled, [])) ∧
    (∀ (cfg : EngineCfg) (r : HResp) (n : Int), r.status ≠ 404 →
      goAtoi r.contentLength = some n → n > (cfg.sizeLimit : Int) * 1024 * 1024 →
      finalizeResp cfg r = (Outcome.redirectOut 301 r.reqURL.toString, [r.body])) ∧
    (∀ (cfg : EngineCfg) (r : HResp) (n : Int), r.status ≠ 404 →
      goAtoi r.contentLength = some n → ¬ n > (cfg.sizeLimit : Int) * 1024 * 1024 →
      finalizeResp cfg r =
        (Outcome.stream r.status r.body n cfg.bandwidthEnabled, [])) ∧
    (∀ (cfg : EngineCfg) (image : Option ImageInfo) (reqPath bb ua : String)
        (cache : List (String × String)) (env : Env) (r : HResp),
      env.bodyReadOk = true → env.buildOk = true → env.initial = some r →
      ¬ (r.status = 401 ∨ r.status = 404) → ¬ (r.status = 302 ∨ r.status = 307) →
      (GhcrRequest cfg image reqPath bb ua cache env).1 = (finalizeResp cfg r).1) := by
  have hclne : ∀ (s : String) (n : Int), goAtoi s = some n → s ≠ "" := by
    intro s n hA hc
    rw [hc] at hA
    cases hA
  refine ⟨?_, ?_, ?_, ?_⟩
  · intro cfg r h404 hne hA
    unfold finalizeResp
    rw [if_neg h404, if_pos hne]
    simp only [hA]
  · intro cfg r n h404 hA hgt
    unfold finalizeResp
    rw [if_neg h404, if_pos (hclne _ _ hA)]
    simp only [hA]
    rw [if_pos hgt]
  · intro cfg r n h404 hA hgt
    unfold finalizeResp
    rw [if_neg h404, if_pos (hclne _ _ hA)]
    simp only [hA]
    rw [if_neg hgt]
  · intro cfg image reqPath bb ua cache env r h1 h2 h3 hna hnr
    have hG : GhcrRequest cfg image reqPath bb ua cache env =
        postAuthPipeline cfg env ua r (tr1Of image bb cache) := by
      rw [ghcrRequest_eq cfg image reqPath bb ua cache env r h1 h2 h3,
        authPhase_pass env image reqPath r (tr1Of image bb cache) hna]
    rw [hG, postAuthPipeline_outcome,
      redirectPhase_pass env ua r (tr1Of image bb cache) hnr]

/-- C3 witness: a declared Content-Length of 99999999999 bytes against a
10 MB ceiling yields a 301 to the upstream's final resolved URL with the
body closed, via the theorem. -/
theorem spec_c3_witness :
    finalizeResp ⟨10, false⟩ ⟨200, "", "99999999999", c1URL, 5⟩ =
      (Outcome.redirectOut 301 "https://ghcr.io/v2/liba/app/manifests/latest", [5]) := by
  have h := spec_c3.2.1 ⟨10, false⟩ ⟨200, "", "99999999999", c1URL, 5⟩ 99999999999
    (by decide) (by decide) (by decide)
  rw [h]
  rfl

/-! ### C5: cached token on the initial request -/

/-- C5: when the token cache holds a token for the request's image
identity, the initial upstream request carries
`Authorization: Bearer <token>` and the original request body bytes are
buffered (and any resend reuses exactly those bytes); and when the first
upstream response is a 200, no challenge request is ever issued. -/
theorem spec_c5 :
    (∀ (cfg : EngineCfg) (img : ImageInfo) (reqPath bb ua t : String)
        (cache : List (String × String)) (env : Env),
      env.bodyReadOk = true → env.buildOk = true →
      cache.lookup img.image = some t →
      (GhcrRequest cfg (some img) reqPath bb ua cache env).2.initialAuth =
        some ("Bearer " ++ t) ∧
      (GhcrRequest cfg (some img) reqPath bb ua cache env).2.initialBodyBytes = bb) ∧
    (∀ (cfg : EngineCfg) (image : Option ImageInfo) (reqPath bb ua : String)
        (cache : List (String × String)) (env : Env),
      (GhcrRequest cfg image reqPath bb ua cache env).2.retryBodyBytes = none ∨
      (GhcrRequest cfg image reqPath bb ua cache env).2.retryBodyBytes = some bb) ∧
    (∀ (cfg : EngineCfg) (image : Option ImageInfo) (reqPath bb ua : String)
        (cache : List (String × String)) (env : Env) (r : HResp),
      env.initial = some r → r.status = 200 →
      (GhcrRequest cfg image reqPath bb ua cache env).2.challengeCalled = false) := by
  refine ⟨?_, ?_, ?_⟩
  · intro cfg img reqPath bb ua t cache env h1 h2 hc
    have htr1auth : (tr1Of (some img) bb cache).initialAuth = some ("Bearer " ++ t) := by
      simp [tr1Of, initTrace, hc]
    have htr1bb : (tr1Of (some img) bb cache).initialBodyBytes = bb := rfl
    cases hi : env.initial with
    | none =>
      rw [GhcrRequest]
      simp only [h1, h2, hi]
      simp [htr1auth, htr1bb]
    | some r =>
      rw [ghcrRequest_eq cfg (some img) reqPath bb ua cache env r h1 h2 hi]
      have hpre := authPhase_preserves env (some img) reqPath r (tr1Of (some img) bb cache)
      rcases hA : authPhase env (some img) reqPath r (tr1Of (some img) bb cache) with ⟨sr, tr2⟩
      rw [hA] at hpre
      cases sr with
      | done o => exact ⟨by rw [hpre.2.1, htr1auth], by rw [hpre.2.2.1]; exact htr1bb⟩
      | cont r1 =>
        have hpp := postAuthPipeline_preserves cfg env ua r1 tr2
        exact ⟨by rw [hpp.2.2.2.1, hpre.2.1, htr1auth],
          by rw [hpp.2.2.2.2.1, hpre.2.2.1]; exact htr1bb⟩
  · intro cfg image reqPath bb ua cache env
    cases hb : env.bodyReadOk with
    | false => left; simp [GhcrRequest, hb, initTrace]
    | true =>
      cases hb2 : env.buildOk with
      | false => left; simp [GhcrRequest, hb, hb2, initTrace]
      | true =>
        cases hi : env.initial with
        | none => left; simp [GhcrRequest, hb, hb2, hi, tr1Of, initTrace]
        | some r =>
          rw [ghcrRequest_eq cfg image reqPath bb ua cache env r hb hb2 hi]
          have htr1 := tr1Of_fields image bb cache
          have hrb := authPhase_retryBodyBytes env image reqPath r (tr1Of image bb cache)
          rcases hA : authPhase env image reqPath r (tr1Of image bb cache) with ⟨sr, tr2⟩
          rw [hA] at hrb
          rw [htr1.2.2.2.2.1, htr1.2.2.2.1] at hrb
          cases sr with
          | done o => exact hrb
          | cont r1 =>
            have hpp := postAuthPipeline_preserves cfg env ua r1 tr2
            rw [hpp.2.2.2.2.2.2.1]
            exact hrb
  · intro cfg image reqPath bb ua cache env r hi hs
    have hnot : ¬ (r.status = 401 ∨ r.status = 404) := by
      rw [hs]
      rintro (hc | hc) <;> cases hc
    cases hb : env.bodyReadOk with
    | false => simp [GhcrRequest, hb, initTrace]
    | true =>
      cases hb2 : env.buildOk with
      | false => simp [GhcrRequest, hb, hb2, initTrace]
      | true =>
        rw [ghcrRequest_eq cfg image reqPath bb ua cache env r hb hb2 hi,
          authPhase_pass env image reqPath r (tr1Of image bb cache) hnot]
        have hpp := postAuthPipeline_preserves cfg env ua r (tr1Of image bb cache)
        rw [hpp.1, (tr1Of_fields image bb cache).1]

/-- C5 witness: cached token attached, body buffered, no challenge on a
first-response 200. -/
theorem spec_c5_witness :
    (GhcrRequest ⟨10, false⟩ (some c1Img) "/v2/liba/app/manifests/latest" "B" "UA"
      [("liba/app", "cached")] { c1Env with initial := some ⟨200, "", "", c1URL, 0⟩ }
      ).2.initialAuth = some ("Bearer cached") ∧
    (GhcrRequest ⟨10, false⟩ (some c1Img) "/v2/liba/app/manifests/latest" "B" "UA"
      [("liba/app", "cached")] { c1Env with initial := some ⟨200, "", "", c1URL, 0⟩ }
      ).2.challengeCalled = false := by
  refine ⟨(spec_c5.1 ⟨10, false⟩ c1Img "/v2/liba/app/manifests/latest" "B" "UA" "cached"
    [("liba/app", "cached")] { c1Env with initial := some ⟨200, "", "", c1URL, 0⟩ }
    (by decide) (by decide) (by decide)).1, ?_⟩
  exact spec_c5.2.2 ⟨10, false⟩ (some c1Img) "/v2/liba/app/manifests/latest" "B" "UA"
    [("liba/app", "cached")] { c1Env with initial := some ⟨200, "", "", c1URL, 0⟩ }
    ⟨200, "", "", c1URL, 0⟩ (by decide) (by decide)

/-! ### C10: absent Content-Length skips size enforcement -/

/-- C10: a final upstream response with no `Content-Length` header at all
undergoes no size enforcement regardless of the actual body size and
streams with unknown length `-1`; conversely, the size-redirect outcome
can only arise from a response that declared a parsable `Content-Length`
exceeding the configured ceiling. -/
theorem spec_c10 :
    (∀ (cfg : EngineCfg) (r : HResp), r.contentLength = "" → r.status ≠ 404 →
      finalizeResp cfg r =
        (Outcome.stream r.status r.body (-1) cfg.bandwidthEnabled, [])) ∧
    (∀ (cfg : EngineCfg) (r : HResp) (st : Nat) (u : String) (cl : List Nat),
      finalizeResp cfg r = (Outcome.redirectOut st u, cl) →
      r.contentLength ≠ "" ∧ ∃ n, goAtoi r.contentLength = some n ∧
        n > (cfg.sizeLimit : Int) * 1024 * 1024) := by
  refine ⟨?_, ?_⟩
  · intro cfg r hcl h404
    exact finalizeResp_noCL cfg r h404 hcl
  · intro cfg r st u cl h
    unfold finalizeResp at h
    by_cases h404 : r.status = 404
    · rw [if_pos h404] at h
      simp at h
    rw [if_neg h404] at h
    by_cases hcl : r.contentLength ≠ ""
    · rw [if_pos hcl] at h
      cases hA : goAtoi r.contentLength with
      | none => rw [hA] at h; simp at h
      | some n =>
        rw [hA] at h
        by_cases hgt : n > (cfg.sizeLimit : Int) * 1024 * 1024
        · exact ⟨hcl, n, rfl, hgt⟩
        · replace h : (if n > (cfg.sizeLimit : Int) * 1024 * 1024 then
              (Outcome.redirectOut 301 r.reqURL.toString, [r.body])
            else (Outcome.stream r.status r.body n cfg.bandwidthEnabled, [])) =
              (Outcome.redirectOut st u, cl) := h
          rw [if_neg hgt] at h
          simp at h
    · rw [if_neg hcl] at h
      simp at h

/-- C10 witness: no Content-Length header streams with `-1` even though the
actual body could be arbitrarily large; the theorem applied concretely. -/
theorem spec_c10_witness :
    finalizeResp ⟨10, false⟩ ⟨200, "", "", c1URL, 9⟩ =
      (Outcome.stream 200 9 (-1) false, []) := by
  have h := spec_c10.1 ⟨10, false⟩ ⟨200, "", "", c1URL, 9⟩ (by decide) (by decide)
  rw [h]

/-! ### C9: the challenge resolver -/

/-- C9: `ChallengeReq` returns the decoded token exactly when every step
succeeds — the `GET https://<host>/v2/` is sent, the `WWW-Authenticate`
header parses as a Bearer challenge, the token endpoint is queried with
the challenge's realm/service and scope `repository:<owner>/<repo>:pull`,
the body reads, and the JSON decodes to `{token}`.  On any failure branch
it returns the empty string (a non-empty result certifies that every step
succeeded), and every response body it opens is closed before it returns,
on every branch. -/
theorem spec_c9 (target : String) (img : ImageInfo) (env : ChEnv) :
    (∀ (r1 : Ch401) (b : Bearer) (r2 : ChAuth) (tok : String),
      env.build401Ok = true → env.resp401 = some r1 →
      parseBearerWWWAuthenticateHeader r1.wwwAuth = some b →
      env.authBuildOk = true → env.authResp = some r2 → r2.readOk = true →
      r2.decoded = some tok →
      ChallengeReq target img env =
        (tok, ⟨some ("https://" ++ target ++ "/v2/"),
          some (b.realm, b.service, "repository:" ++ img.image ++ ":pull"),
          [r1.body, r2.body], [r2.body, r1.body]⟩)) ∧
    ((ChallengeReq target img env).1 ≠ "" →
      env.build401Ok = true ∧
      ∃ r1, env.resp401 = some r1 ∧
        (∃ b, parseBearerWWWAuthenticateHeader r1.wwwAuth = some b) ∧
        env.authBuildOk = true ∧
        ∃ r2, env.authResp = some r2 ∧ r2.readOk = true ∧
          r2.decoded = some (ChallengeReq target img env).1) ∧
    (∀ x ∈ (ChallengeReq target img env).2.opened,
      x ∈ (ChallengeReq target img env).2.closed) := by
  have hsucc : ∀ (r1 : Ch401) (b : Bearer) (r2 : ChAuth) (tok : String),
      env.build401Ok = true → env.resp401 = some r1 →
      parseBearerWWWAuthenticateHeader r1.wwwAuth = some b →
      env.authBuildOk = true → env.authResp = some r2 → r2.readOk = true →
      r2.decoded = some tok →
      ChallengeReq target img env =
        (tok, ⟨some ("https://" ++ target ++ "/v2/"),
          some (b.realm, b.service, "repository:" ++ img.image ++ ":pull"),
          [r1.body, r2.body], [r2.body, r1.body]⟩) := by
    intro r1 b r2 tok h1 h2 h3 h4 h5 h6 h7
    unfold ChallengeReq
    rw [h1, h2]
    simp only [h3, h4, h5, h6, h7]
    simp
  refine ⟨hsucc, ?_, ?_⟩
  · intro h
    cases h1 : env.build401Ok with
    | false =>
      rw [ChallengeReq] at h
      rw [h1] at h
      simp at h
    | true =>
      cases h2 : env.resp401 with
      | none =>
        rw [ChallengeReq] at h
        rw [h1, h2] at h
        simp at h
      | some r1 =>
        cases h3 : parseBearerWWWAuthenticateHeader r1.wwwAuth with
        | none =>
          rw [ChallengeReq] at h
          rw [h1, h2] at h
          simp only [h3] at h
          simp at h
        | some b =>
          cases h4 : env.authBuildOk with
          | false =>
            rw [ChallengeReq] at h
            rw [h1, h2] at h
            simp only [h3, h4] at h
            simp at h
          | true =>
            cases h5 : env.authResp with
            | none =>
              rw [ChallengeReq] at h
              rw [h1, h2] at h
              simp only [h3, h4, h5] at h
              simp at h
            | some r2 =>
              cases h6 : r2.readOk with
              | false =>
                rw [ChallengeReq] at h
                rw [h1, h2] at h
                simp only [h3, h4, h5, h6] at h
                simp at h
              | true =>
                cases h7 : r2.decoded with
                | none =>
                  rw [ChallengeReq] at h
                  rw [h1, h2] at h
                  simp only [h3, h4, h5, h6, h7] at h
                  simp at h
                | some tok =>
                  have := hsucc r1 b r2 tok h1 h2 h3 h4 h5 h6 h7
                  refine ⟨rfl, r1, rfl, ⟨b, h3⟩, rfl, r2, rfl, h6, ?_⟩
                  rw [this]
                  exact h7
  · unfold ChallengeReq
    repeat' split
    all_goals intro x hx
    all_goals simp_all
    all_goals tauto

/-- C9 witness: a fully successful challenge run through the theorem. -/
theorem spec_c9_witness :
    ChallengeReq "ghcr.io" ⟨"liba", "app", "liba/app"⟩
      ⟨true, some ⟨"Bearer realm=\x22https://ghcr.io/token\x22,service=\x22ghcr.io\x22", 7⟩,
        true, some ⟨8, true, some "T0K"⟩⟩ =
      ("T0K", ⟨some "https://ghcr.io/v2/",
        some ("https://ghcr.io/token", "ghcr.io", "repository:liba/app:pull"),
        [7, 8], [8, 7]⟩) := by
  exact (spec_c9 "ghcr.io" ⟨"liba", "app", "liba/app"⟩
    ⟨true, some ⟨"Bearer realm=\x22https://ghcr.io/token\x22,service=\x22ghcr.io\x22", 7⟩,
      true, some ⟨8, true, some "T0K"⟩⟩).1
    ⟨"Bearer realm=\x22https://ghcr.io/token\x22,service=\x22ghcr.io\x22", 7⟩
    ⟨"https://ghcr.io/token", "ghcr.io"⟩ ⟨8, true, some "T0K"⟩ "T0K"
    (by decide) (by decide) (by decide) (by decide) (by decide) (by decide) (by decide)

end GhProxy
